import Mathlib

/-!
# Silo fill visualisation: shallow embedding of `SiloCard.jsx`

The numeric core of `Silo3D` (fill solver and level animator), the shell meshes of
`SiloStructure` and the particle field `FallingParticles` are embedded over an
arbitrary linearly ordered field, so that they can be evaluated over `ℚ` and reasoned
about over `ℝ`.  The library values the source takes from JavaScript's `Math` object
(`Math.PI`, `Math.cbrt`, `Math.sqrt`, `Math.cos`, `Math.sin`) are parameters of the
definitions, and the results of `Math.random()` are inputs (`Draws`).  The status
colours of `SiloCard.jsx` and `Silos.jsx` and the pagination of `DataTable.jsx` are
embedded as well.

Where a property depends on the rounding of JavaScript numbers, the same lines are also
embedded with the rounding of every operation explicit (`Rounded.fillMeshes`,
`Rounded.animatorTick`, with `roundDouble` on `ℚ`), and the particle field with the
rounding of the `Float32Array` store explicit (`FallingParticles.framesStored`).
-/

namespace SiloCard

/-- Geometry of a fill mesh: the `args` of `<coneGeometry>` or `<cylinderGeometry>`. -/
inductive Geometry (α : Type) where
  | coneGeometry (radius height : α) (radialSegments : Nat)
  | cylinderGeometry (radiusTop radiusBottom height : α) (radialSegments : Nat)
  deriving DecidableEq, Repr

/-- A `<mesh>` element pushed to `fillMeshes`: key, position, rotation (Euler angles,
`[0, 0, 0]` when the attribute is absent) and geometry.  The material is the same for
all fill meshes and is not modelled. -/
structure Mesh (α : Type) where
  key : String
  position : α × α × α
  rotation : α × α × α
  geometry : Geometry α
  deriving DecidableEq, Repr

/-- The dimensions declared at the top of `Silo3D` (lines 200-206). -/
structure SiloDims (α : Type) where
  coneRadius : α
  coneHeight : α
  cylinderRadius : α
  cylinderHeight : α
  fillRadiusOffset : α
  deriving DecidableEq, Repr

section Solver

variable {α : Type} [LinearOrderedField α]

/-- The fixed dimensions of the 3D model: `coneRadius = 4.69 / 2`, `coneHeight = 3.29`,
`cylinderRadius = 4.69 / 2`, `cylinderHeight = 13.30`, `fillRadiusOffset = 0.05`. -/
def siloDims : SiloDims α :=
  { coneRadius := 4.69 / 2
    coneHeight := 3.29
    cylinderRadius := 4.69 / 2
    cylinderHeight := 13.30
    fillRadiusOffset := 0.05 }

/-- Line 226: `fillCylinderRadius = cylinderRadius - fillRadiusOffset`. -/
def fillCylinderRadius (g : SiloDims α) : α :=
  g.cylinderRadius - g.fillRadiusOffset

/-- Line 227: `fillConeRadius = coneRadius - fillRadiusOffset`. -/
def fillConeRadius (g : SiloDims α) : α :=
  g.coneRadius - g.fillRadiusOffset

/-- Line 228: `cylinderVolume = Math.PI * fillCylinderRadius * fillCylinderRadius * cylinderHeight`. -/
def cylinderVolume (pi : α) (g : SiloDims α) : α :=
  pi * fillCylinderRadius g * fillCylinderRadius g * g.cylinderHeight

/-- Line 229: `coneVolume = (1 / 3) * Math.PI * fillConeRadius * fillConeRadius * coneHeight`. -/
def coneVolume (pi : α) (g : SiloDims α) : α :=
  (1 / 3) * pi * fillConeRadius g * fillConeRadius g * g.coneHeight

/-- Line 230: `totalVolume = coneVolume + cylinderVolume`. -/
def totalVolume (pi : α) (g : SiloDims α) : α :=
  coneVolume pi g + cylinderVolume pi g

/-- Line 232: `filledVolume = (animatedFillPercentage / 100) * totalVolume`. -/
def filledVolume (pi : α) (g : SiloDims α) (animatedFillPercentage : α) : α :=
  (animatedFillPercentage / 100) * totalVolume pi g

/-- Lines 240-247: the mesh with key `bottom-cone-fill` built for the cone fill volume
`bottomConeFillVolume`. -/
def bottomConeFillMesh (pi : α) (cbrt : α → α) (g : SiloDims α)
    (bottomConeFillVolume : α) : Mesh α :=
  let bottomConeFillHeight := g.coneHeight * cbrt (bottomConeFillVolume / coneVolume pi g)
  let bottomConeFillTopRadius := fillConeRadius g * (bottomConeFillHeight / g.coneHeight)
  { key := "bottom-cone-fill"
    position := (0, -(g.cylinderHeight / 2) - g.coneHeight + (bottomConeFillHeight / 2), 0)
    rotation := (pi, 0, 0)
    geometry := Geometry.coneGeometry bottomConeFillTopRadius bottomConeFillHeight 32 }

/-- Lines 255-261: the mesh with key `cylinder-fill` built for the cylinder fill volume
`cylinderFillVolume`. -/
def cylinderFillMesh (pi : α) (g : SiloDims α) (cylinderFillVolume : α) : Mesh α :=
  let cylinderFillHeight :=
    cylinderFillVolume / (pi * fillCylinderRadius g * fillCylinderRadius g)
  { key := "cylinder-fill"
    position := (0, -g.cylinderHeight / 2 + (cylinderFillHeight / 2), 0)
    rotation := (0, 0, 0)
    geometry :=
      Geometry.cylinderGeometry (fillCylinderRadius g) (fillCylinderRadius g)
        cylinderFillHeight 32 }

/-- Lines 238-250: the cone stage.  Returns the meshes pushed and the new value of
`remainingVolume`. -/
def coneStage (pi : α) (cbrt : α → α) (g : SiloDims α) (remainingVolume : α) :
    List (Mesh α) × α :=
  if remainingVolume > 0 ∧ coneVolume pi g > 0 then
    let bottomConeFillVolume := min remainingVolume (coneVolume pi g)
    ([bottomConeFillMesh pi cbrt g bottomConeFillVolume],
      remainingVolume - bottomConeFillVolume)
  else
    ([], remainingVolume)

/-- Lines 253-264: the cylinder stage.  Returns the meshes pushed and the new value of
`remainingVolume`. -/
def cylinderStage (pi : α) (g : SiloDims α) (remainingVolume : α) : List (Mesh α) × α :=
  if remainingVolume > 0 ∧ cylinderVolume pi g > 0 then
    let cylinderFillVolume := min remainingVolume (cylinderVolume pi g)
    ([cylinderFillMesh pi g cylinderFillVolume], remainingVolume - cylinderFillVolume)
  else
    ([], remainingVolume)

/-- Lines 232-264: the list `fillMeshes` built by `Silo3D` for the dimensions `g` and
the state `animatedFillPercentage`. -/
def fillMeshes (pi : α) (cbrt : α → α) (g : SiloDims α) (animatedFillPercentage : α) :
    List (Mesh α) :=
  let afterCone := coneStage pi cbrt g (filledVolume pi g animatedFillPercentage)
  let afterCylinder := cylinderStage pi g afterCone.2
  afterCone.1 ++ afterCylinder.1

/-- The list `fillMeshes` of `Silo3D` with its fixed dimensions. -/
def Silo3D.fillMeshes (pi : α) (cbrt : α → α) (animatedFillPercentage : α) :
    List (Mesh α) :=
  SiloCard.fillMeshes pi cbrt siloDims animatedFillPercentage

/-- Lines 208-219, the level part of the frame callback: the value of
`animatedFillPercentage` after one frame with elapsed time `delta`, for the prop
`fillPercentage`. -/
def animatorTick (fillPercentage animatedFillPercentage delta : α) : α :=
  if fillPercentage ≠ animatedFillPercentage then
    let speed : α := 0.5
    let diff := fillPercentage - animatedFillPercentage
    animatedFillPercentage + diff * speed * delta
  else
    animatedFillPercentage

/-! ### Measures used to state the properties -/

/-- Volume of a fill solid: a cone segment of top radius `R` and height `h` has volume
`(1/3) * pi * R^2 * h`, a cylinder segment of radius `r` and height `h` has volume
`pi * r^2 * h`. -/
def Geometry.volume (pi : α) : Geometry α → α
  | Geometry.coneGeometry radius height _ => (1 / 3) * pi * radius ^ 2 * height
  | Geometry.cylinderGeometry radiusTop _ height _ => pi * radiusTop ^ 2 * height

/-- Combined volume of a list of fill meshes. -/
def combinedVolume (pi : α) (ms : List (Mesh α)) : α :=
  (ms.map fun m => m.geometry.volume pi).sum

/-- Height argument of a mesh geometry. -/
def Geometry.height : Geometry α → α
  | Geometry.coneGeometry _ height _ => height
  | Geometry.cylinderGeometry _ _ height _ => height

/-- Whether a geometry is a cone. -/
def Geometry.isCone : Geometry α → Bool
  | Geometry.coneGeometry _ _ _ => true
  | Geometry.cylinderGeometry _ _ _ _ => false

/-- Lowest point of a cylinder mesh, which three.js centres on its position. -/
def Mesh.bottomY (m : Mesh α) : α :=
  m.position.2.1 - m.geometry.height / 2

/-- Highest point of a cylinder mesh, which three.js centres on its position. -/
def Mesh.topY (m : Mesh α) : α :=
  m.position.2.1 + m.geometry.height / 2

/-- World height of the point of the mesh axis at local height `localY`: a turn by the
angle `rotation.x` about the x axis sends the axis point `(0, y, 0)` to height
`y * cos rotation.x`, and the mesh is then moved to `position`. -/
def Mesh.axisWorldY (cos : α → α) (m : Mesh α) (localY : α) : α :=
  m.position.2.1 + localY * cos m.rotation.1

/-- World height of the apex of a cone mesh: three.js puts the apex of an unrotated
`coneGeometry` at local height `+height / 2`. -/
def Mesh.apexY (cos : α → α) (m : Mesh α) : α :=
  m.axisWorldY cos (m.geometry.height / 2)

/-- World height of the flat face of a cone mesh: three.js puts the base disc of an
unrotated `coneGeometry` at local height `-height / 2`. -/
def Mesh.flatY (cos : α → α) (m : Mesh α) : α :=
  m.axisWorldY cos (-(m.geometry.height / 2))

/-- Dimensions with positive heights and radii larger than the inset. -/
def ValidDims (g : SiloDims α) : Prop :=
  0 < g.coneHeight ∧ 0 < g.cylinderHeight ∧
    g.fillRadiusOffset < g.coneRadius ∧ g.fillRadiusOffset < g.cylinderRadius

/-- The function `cbrt` is a cube root on the non-negative numbers, as `Math.cbrt` is. -/
def IsCubeRoot (cbrt : α → α) : Prop :=
  ∀ x, 0 ≤ x → cbrt x ^ 3 = x

/-! ### Frames of the level animator -/

/-- Successive frames of the level animator.  Each frame carries the value of the prop
`fillPercentage` at that frame and the elapsed time `delta`; the state
`animatedFillPercentage` is created once (`useState`) and only changed by the frame
callback, so it is threaded from frame to frame. -/
def animatorFrames : List (α × α) → α → α
  | [], animatedFillPercentage => animatedFillPercentage
  | (fillPercentage, delta) :: rest, animatedFillPercentage =>
      animatorFrames rest (animatorTick fillPercentage animatedFillPercentage delta)

/-! ### The shell meshes of `SiloStructure` -/

/-- Lines 39-41: the body of the silo, a cylinder mesh without position or rotation. -/
def SiloStructure.bodyMesh (g : SiloDims α) : Mesh α :=
  { key := "Cuerpo del silo"
    position := (0, 0, 0)
    rotation := (0, 0, 0)
    geometry := Geometry.cylinderGeometry g.cylinderRadius g.cylinderRadius g.cylinderHeight 64 }

/-- Lines 52-54: the conical part of the shell, a cone mesh with a position and without
rotation. -/
def SiloStructure.coneMesh (g : SiloDims α) : Mesh α :=
  { key := "Faldón cónico"
    position := (0, -g.cylinderHeight / 2 - g.coneHeight / 2, 0)
    rotation := (0, 0, 0)
    geometry := Geometry.coneGeometry g.coneRadius g.coneHeight 64 }

/-- Lines 116-126: height of the centre of the discharge hopper mesh. -/
def SiloStructure.hopperY (g : SiloDims α) : α :=
  -g.cylinderHeight / 2 - g.coneHeight - 0.2

/-- Radius of a mesh at world height `y`: constant for a cylinder; for a cone it grows
linearly from 0 at the apex to `radius` at the flat face, `height` away. -/
def Mesh.radiusAt (cos : α → α) (m : Mesh α) (y : α) : α :=
  match m.geometry with
  | Geometry.coneGeometry radius height _ => radius * (|y - m.apexY cos| / height)
  | Geometry.cylinderGeometry radiusTop _ _ _ => radiusTop

/-- Whether the world height `y` is within the vertical extent of the mesh. -/
def Mesh.inExtent (m : Mesh α) (y : α) : Prop :=
  m.bottomY ≤ y ∧ y ≤ m.topY

/-- Radius of the shell of `SiloStructure` at world height `y`: that of the body cylinder
on its vertical extent `[-cylinderHeight/2, cylinderHeight/2]`, that of the cone mesh
elsewhere. -/
def SiloStructure.shellRadiusAt (cos : α → α) (g : SiloDims α) (y : α) : α :=
  if (SiloStructure.bodyMesh g).bottomY ≤ y ∧ y ≤ (SiloStructure.bodyMesh g).topY then
    (SiloStructure.bodyMesh g).radiusAt cos y
  else
    (SiloStructure.coneMesh g).radiusAt cos y

/-! ### The particle field `FallingParticles` -/

/-- Line 134: `particleCount = 200`. -/
def FallingParticles.particleCount : Nat := 200

/-- Lines 142 and 167: `cylinderHeight = 13.30`. -/
def FallingParticles.cylinderHeight : α := 13.30

/-- Line 143: `cylinderRadius = 4.69 / 2`. -/
def FallingParticles.cylinderRadius : α := 4.69 / 2

/-- Line 166: `coneHeight = 3.29`. -/
def FallingParticles.coneHeight : α := 3.29

/-- The four values `Math.random()` returns for one particle, in the order of the calls
on lines 146, 147, 148 and 152. -/
structure Draws (α : Type) where
  uY : α
  uTheta : α
  uR : α
  uV : α
  deriving DecidableEq, Repr

/-- Lines 146-151: the three entries of `positions` written for one particle. -/
def FallingParticles.initPosition (pi : α) (sqrt cos sin : α → α) (fillPercentage : α)
    (u : Draws α) : α × α × α :=
  let y := (u.uY * FallingParticles.cylinderHeight) - FallingParticles.cylinderHeight / 2 +
    FallingParticles.cylinderHeight * (1 - fillPercentage / 100)
  let theta := u.uTheta * pi * 2
  let r := sqrt u.uR * FallingParticles.cylinderRadius * 0.9
  (r * cos theta, y, r * sin theta)

/-- Line 152: the entries of `velocities` for one particle; only the middle one is
written, the other two keep the initial 0 of the array. -/
def FallingParticles.initVelocity (u : Draws α) : α × α × α :=
  (0, -(0.01 + u.uV * 0.05), 0)

/-- Lines 136-160: the arrays `positions` and `velocities` filled by the effect, one
triple per particle.  Only `positions` is stored in the geometry. -/
def FallingParticles.init (pi : α) (sqrt cos sin : α → α) (fillPercentage : α)
    (draws : List (Draws α)) : List (α × α × α) × List (α × α × α) :=
  (draws.map (FallingParticles.initPosition pi sqrt cos sin fillPercentage),
    draws.map FallingParticles.initVelocity)

/-- Line 168: `fillHeight = (cylinderHeight + coneHeight) * (fillPercentage / 100) -
coneHeight`. -/
def FallingParticles.fillHeight (fillPercentage : α) : α :=
  (FallingParticles.cylinderHeight + FallingParticles.coneHeight) * (fillPercentage / 100) -
    FallingParticles.coneHeight

/-- Line 172: the height `-cylinderHeight / 2 + fillHeight` a particle is compared to. -/
def FallingParticles.fillLine (fillPercentage : α) : α :=
  -FallingParticles.cylinderHeight / 2 + FallingParticles.fillHeight fillPercentage

/-- Lines 171-174: the new value of `positions[i * 3 + 1]` in one frame. -/
def FallingParticles.frameY (fillPercentage y : α) : α :=
  let y1 := y + -0.01
  if y1 < -FallingParticles.cylinderHeight / 2 + FallingParticles.fillHeight fillPercentage then
    FallingParticles.cylinderHeight / 2 + 1
  else
    y1

/-- Lines 162-178: one frame of the particle field on the array `positions`. -/
def FallingParticles.frame (fillPercentage : α) (positions : List (α × α × α)) :
    List (α × α × α) :=
  positions.map fun q => (q.1, FallingParticles.frameY fillPercentage q.2.1, q.2.2)

/-- The array `positions` after `n` frames with the same prop `fillPercentage`. -/
def FallingParticles.frames (fillPercentage : α) : Nat → List (α × α × α) → List (α × α × α)
  | 0, positions => positions
  | n + 1, positions =>
      FallingParticles.frames fillPercentage n (FallingParticles.frame fillPercentage positions)

/-- The prop and the state of `Silo3D`: the target `fillPercentage` and the displayed
`animatedFillPercentage`. -/
structure FillState (α : Type) where
  fillPercentage : α
  animatedFillPercentage : α
  deriving DecidableEq, Repr

/-- Line 278: the prop `fillPercentage` given to `FallingParticles`, or `none` when the
component is not rendered. -/
def Silo3D.fallingParticlesProp (s : FillState α) : Option α :=
  if s.fillPercentage < 100 then some s.fillPercentage else none

/-- Lines 168 and 278: the `fillHeight` the particle field computes in a frame of
`Silo3D` in state `s`. -/
def Silo3D.particleFillHeight (s : FillState α) : Option α :=
  (Silo3D.fallingParticlesProp s).map FallingParticles.fillHeight

/-- Highest point of a fill mesh: the flat face of a cone segment, the top of a cylinder
segment. -/
def Mesh.surfaceY (cos : α → α) (m : Mesh α) : α :=
  if m.geometry.isCone then m.flatY cos else m.topY

/-- Top surface of a list of fill meshes: the highest of their highest points, `none` for
the empty list. -/
def fillTopY (cos : α → α) : List (Mesh α) → Option α
  | [] => none
  | m :: rest =>
    match fillTopY cos rest with
    | none => some (m.surfaceY cos)
    | some y => some (max (m.surfaceY cos) y)

/-! ### Status colours -/

/-- `SiloCard.jsx`, lines 311-316: `getStatusColor` of the card view. -/
def getStatusColor (porcentaje : α) : String :=
  if porcentaje ≥ 80 then "#44ff44"
  else if porcentaje ≥ 60 then "#ffdd00"
  else if porcentaje ≥ 30 then "#ffaa00"
  else "#ff4444"

/-- `Silos.jsx`, lines 235-240: `getStatusColor` of the table view. -/
def Silos.getStatusColor (porcentaje : α) : String :=
  if porcentaje ≥ 80 then "#ff4444"
  else if porcentaje ≥ 60 then "#ffaa00"
  else if porcentaje ≥ 30 then "#ffdd00"
  else "#44ff44"

end Solver

/-! ### Pagination of `DataTable` -/

section Pagination

variable {ρ : Type}

/-- `Array.prototype.slice(start, end)` for integer arguments: a negative index counts
from the end of the array, both indices are clamped to the array, and the result is empty
when the end is not after the start. -/
def jsSlice (xs : List ρ) (start stop : Int) : List ρ :=
  let len : Int := xs.length
  let k := if start < 0 then max (len + start) 0 else min start len
  let final := if stop < 0 then max (len + stop) 0 else min stop len
  (xs.drop k.toNat).take (final - k).toNat

/-- `DataTable.jsx`, line 48: `totalPages = usePaginated ? Math.ceil(sortedData.length /
pageSize) : 1`. -/
def DataTable.totalPages (usePaginated : Bool) (sortedData : List ρ) (pageSize : Nat) : Nat :=
  if usePaginated then ⌈(sortedData.length : ℚ) / (pageSize : ℚ)⌉₊ else 1

/-- `DataTable.jsx`, lines 49-53: `paginatedData`, the rows shown for `currentPage`. -/
def DataTable.paginatedData (usePaginated : Bool) (sortedData : List ρ)
    (currentPage pageSize : Nat) : List ρ :=
  if usePaginated then
    jsSlice sortedData (((currentPage : Int) - 1) * pageSize) ((currentPage : Int) * pageSize)
  else
    sortedData

end Pagination

/-! ### Double and single precision -/

section Rounding

/-- Nearest integer to a rational, a tie going to the even neighbour. -/
def roundHalfEven (z : ℚ) : ℤ :=
  if z - ⌊z⌋ < 1 / 2 then ⌊z⌋
  else if 1 / 2 < z - ⌊z⌋ then ⌊z⌋ + 1
  else if ⌊z⌋ % 2 = 0 then ⌊z⌋
  else ⌊z⌋ + 1

/-- IEEE 754 rounding to the nearest number with `prec` significant bits, ties to even.
The exponent range is not bounded: overflow and subnormal numbers are not modelled. -/
def roundBits (prec : Nat) (x : ℚ) : ℚ :=
  if x = 0 then 0
  else
    roundHalfEven (x / 2 ^ (Int.log 2 |x| - ((prec : ℤ) - 1))) *
      2 ^ (Int.log 2 |x| - ((prec : ℤ) - 1))

/-- Rounding to a JavaScript number (binary64, 53 significant bits). -/
def roundDouble (x : ℚ) : ℚ :=
  roundBits 53 x

/-- Rounding to an entry of a `Float32Array` (binary32, 24 significant bits). -/
def roundSingle (x : ℚ) : ℚ :=
  roundBits 24 x

/-- The value of `Math.PI`, the double nearest to pi. -/
def doublePi : ℚ :=
  884279719003555 / 281474976710656

end Rounding

/-! ### The fill solver and the animator with the rounding of every operation

The same lines of `Silo3D`, with the result of every arithmetic operation and every
decimal literal passed through `rnd`.  Integer literals, negation and `Math.min` are
exact.  With `rnd = roundDouble` this is the computation on JavaScript numbers, with
`rnd = id` it is the exact computation above. -/

section Rounded

variable {α : Type} [LinearOrderedField α]

/-- Lines 200-206 with rounding: the dimensions as JavaScript numbers. -/
def Rounded.siloDims (rnd : α → α) : SiloDims α :=
  { coneRadius := rnd (rnd 4.69 / 2)
    coneHeight := rnd 3.29
    cylinderRadius := rnd (rnd 4.69 / 2)
    cylinderHeight := rnd 13.30
    fillRadiusOffset := rnd 0.05 }

/-- Line 226 with rounding. -/
def Rounded.fillCylinderRadius (rnd : α → α) (g : SiloDims α) : α :=
  rnd (g.cylinderRadius - g.fillRadiusOffset)

/-- Line 227 with rounding. -/
def Rounded.fillConeRadius (rnd : α → α) (g : SiloDims α) : α :=
  rnd (g.coneRadius - g.fillRadiusOffset)

/-- Line 228 with rounding; the product is evaluated from the left. -/
def Rounded.cylinderVolume (rnd : α → α) (pi : α) (g : SiloDims α) : α :=
  rnd (rnd (rnd (pi * Rounded.fillCylinderRadius rnd g) * Rounded.fillCylinderRadius rnd g) *
    g.cylinderHeight)

/-- Line 229 with rounding; the product is evaluated from the left. -/
def Rounded.coneVolume (rnd : α → α) (pi : α) (g : SiloDims α) : α :=
  rnd (rnd (rnd (rnd (rnd (1 / 3) * pi) * Rounded.fillConeRadius rnd g) *
    Rounded.fillConeRadius rnd g) * g.coneHeight)

/-- Line 230 with rounding. -/
def Rounded.totalVolume (rnd : α → α) (pi : α) (g : SiloDims α) : α :=
  rnd (Rounded.coneVolume rnd pi g + Rounded.cylinderVolume rnd pi g)

/-- Line 232 with rounding. -/
def Rounded.filledVolume (rnd : α → α) (pi : α) (g : SiloDims α)
    (animatedFillPercentage : α) : α :=
  rnd (rnd (animatedFillPercentage / 100) * Rounded.totalVolume rnd pi g)

/-- Lines 240-247 with rounding. -/
def Rounded.bottomConeFillMesh (rnd : α → α) (pi : α) (cbrt : α → α) (g : SiloDims α)
    (bottomConeFillVolume : α) : Mesh α :=
  let bottomConeFillHeight :=
    rnd (g.coneHeight * cbrt (rnd (bottomConeFillVolume / Rounded.coneVolume rnd pi g)))
  let bottomConeFillTopRadius :=
    rnd (Rounded.fillConeRadius rnd g * rnd (bottomConeFillHeight / g.coneHeight))
  { key := "bottom-cone-fill"
    position :=
      (0, rnd (rnd (-(rnd (g.cylinderHeight / 2)) - g.coneHeight) +
        rnd (bottomConeFillHeight / 2)), 0)
    rotation := (pi, 0, 0)
    geometry := Geometry.coneGeometry bottomConeFillTopRadius bottomConeFillHeight 32 }

/-- Lines 255-261 with rounding. -/
def Rounded.cylinderFillMesh (rnd : α → α) (pi : α) (g : SiloDims α)
    (cylinderFillVolume : α) : Mesh α :=
  let cylinderFillHeight :=
    rnd (cylinderFillVolume /
      rnd (rnd (pi * Rounded.fillCylinderRadius rnd g) * Rounded.fillCylinderRadius rnd g))
  { key := "cylinder-fill"
    position := (0, rnd (rnd (-g.cylinderHeight / 2) + rnd (cylinderFillHeight / 2)), 0)
    rotation := (0, 0, 0)
    geometry :=
      Geometry.cylinderGeometry (Rounded.fillCylinderRadius rnd g)
        (Rounded.fillCylinderRadius rnd g) cylinderFillHeight 32 }

/-- Lines 238-250 with rounding. -/
def Rounded.coneStage (rnd : α → α) (pi : α) (cbrt : α → α) (g : SiloDims α)
    (remainingVolume : α) : List (Mesh α) × α :=
  if remainingVolume > 0 ∧ Rounded.coneVolume rnd pi g > 0 then
    let bottomConeFillVolume := min remainingVolume (Rounded.coneVolume rnd pi g)
    ([Rounded.bottomConeFillMesh rnd pi cbrt g bottomConeFillVolume],
      rnd (remainingVolume - bottomConeFillVolume))
  else
    ([], remainingVolume)

/-- Lines 253-264 with rounding. -/
def Rounded.cylinderStage (rnd : α → α) (pi : α) (g : SiloDims α) (remainingVolume : α) :
    List (Mesh α) × α :=
  if remainingVolume > 0 ∧ Rounded.cylinderVolume rnd pi g > 0 then
    let cylinderFillVolume := min remainingVolume (Rounded.cylinderVolume rnd pi g)
    ([Rounded.cylinderFillMesh rnd pi g cylinderFillVolume],
      rnd (remainingVolume - cylinderFillVolume))
  else
    ([], remainingVolume)

/-- Lines 232-264 with rounding: the list `fillMeshes`. -/
def Rounded.fillMeshes (rnd : α → α) (pi : α) (cbrt : α → α) (g : SiloDims α)
    (animatedFillPercentage : α) : List (Mesh α) :=
  let afterCone :=
    Rounded.coneStage rnd pi cbrt g (Rounded.filledVolume rnd pi g animatedFillPercentage)
  let afterCylinder := Rounded.cylinderStage rnd pi g afterCone.2
  afterCone.1 ++ afterCylinder.1

/-- Lines 214-218 with rounding: the level part of the frame callback. -/
def Rounded.animatorTick (rnd : α → α) (fillPercentage animatedFillPercentage delta : α) : α :=
  if fillPercentage ≠ animatedFillPercentage then
    let speed : α := rnd 0.5
    let diff := rnd (fillPercentage - animatedFillPercentage)
    rnd (animatedFillPercentage + rnd (rnd (diff * speed) * delta))
  else
    animatedFillPercentage

/-! ### The particle field with the `Float32Array` store

The array `positions` is a `Float32Array`: every value written to it is rounded, by
`store`, and the frame compares the value read back from the array. -/

/-- Lines 146-151 and 157: the array `positions` as stored. -/
def FallingParticles.initStored (store : α → α) (pi : α) (sqrt cos sin : α → α)
    (fillPercentage : α) (draws : List (Draws α)) : List (α × α × α) :=
  (FallingParticles.init pi sqrt cos sin fillPercentage draws).1.map
    fun q => (store q.1, store q.2.1, store q.2.2)

/-- Lines 171-174 on the stored value of `positions[i * 3 + 1]`. -/
def FallingParticles.frameYStored (store : α → α) (fillPercentage y : α) : α :=
  let y1 := store (y + -0.01)
  if y1 < -FallingParticles.cylinderHeight / 2 + FallingParticles.fillHeight fillPercentage then
    store (FallingParticles.cylinderHeight / 2 + 1)
  else
    y1

/-- Lines 162-178 on the stored array: one frame. -/
def FallingParticles.frameStored (store : α → α) (fillPercentage : α)
    (positions : List (α × α × α)) : List (α × α × α) :=
  positions.map fun q => (q.1, FallingParticles.frameYStored store fillPercentage q.2.1, q.2.2)

/-- The stored array after `n` frames with the same prop `fillPercentage`. -/
def FallingParticles.framesStored (store : α → α) (fillPercentage : α) :
    Nat → List (α × α × α) → List (α × α × α)
  | 0, positions => positions
  | n + 1, positions =>
      FallingParticles.framesStored store fillPercentage n
        (FallingParticles.frameStored store fillPercentage positions)

end Rounded

/-! ## Shared lemmas -/

section Lemmas

variable {α : Type} [LinearOrderedField α]

theorem fillConeRadius_pos {g : SiloDims α} (hg : ValidDims g) : 0 < fillConeRadius g := by
  unfold fillConeRadius
  linarith [hg.2.2.1]

theorem fillCylinderRadius_pos {g : SiloDims α} (hg : ValidDims g) :
    0 < fillCylinderRadius g := by
  unfold fillCylinderRadius
  linarith [hg.2.2.2]

theorem coneVolume_pos {pi : α} (hpi : 0 < pi) {g : SiloDims α} (hg : ValidDims g) :
    0 < coneVolume pi g := by
  have hr := fillConeRadius_pos hg
  have hh := hg.1
  unfold coneVolume
  positivity

theorem cylinderVolume_pos {pi : α} (hpi : 0 < pi) {g : SiloDims α} (hg : ValidDims g) :
    0 < cylinderVolume pi g := by
  have hr := fillCylinderRadius_pos hg
  have hh := hg.2.1
  unfold cylinderVolume
  positivity

theorem totalVolume_pos {pi : α} (hpi : 0 < pi) {g : SiloDims α} (hg : ValidDims g) :
    0 < totalVolume pi g := by
  unfold totalVolume
  linarith [coneVolume_pos hpi hg, cylinderVolume_pos hpi hg]

theorem validDims_siloDims : ValidDims (siloDims : SiloDims α) := by
  unfold ValidDims siloDims
  norm_num

/-- A cube root of a positive number is positive. -/
theorem IsCubeRoot.pos {cbrt : α → α} (hc : IsCubeRoot cbrt) {x : α} (hx : 0 < x) :
    0 < cbrt x := by
  have h3 : cbrt x ^ 3 = x := hc x hx.le
  by_contra hneg
  have hle : cbrt x ≤ 0 := not_lt.mp hneg
  have : cbrt x ^ 3 ≤ 0 := by
    have h2 : 0 ≤ cbrt x ^ 2 := sq_nonneg _
    have : cbrt x ^ 3 = cbrt x ^ 2 * cbrt x := by ring
    rw [this]
    exact mul_nonpos_of_nonneg_of_nonpos h2 hle
  linarith

/-- A cube root of a number in `(0, 1]` is at most one. -/
theorem IsCubeRoot.le_one {cbrt : α → α} (hc : IsCubeRoot cbrt) {x : α} (hx : 0 < x)
    (hx1 : x ≤ 1) : cbrt x ≤ 1 := by
  have h3 : cbrt x ^ 3 = x := hc x hx.le
  have hpos := hc.pos hx
  by_contra hgt
  have hgt1 : 1 < cbrt x := not_le.mp hgt
  have : 1 < cbrt x ^ 3 := one_lt_pow₀ hgt1 (by norm_num)
  linarith

/-- The cube root of one is one. -/
theorem IsCubeRoot.one {cbrt : α → α} (hc : IsCubeRoot cbrt) : cbrt 1 = 1 := by
  have h3 : cbrt 1 ^ 3 = 1 := hc 1 zero_le_one
  have hpos : 0 < cbrt 1 := hc.pos zero_lt_one
  have hle : cbrt 1 ≤ 1 := hc.le_one zero_lt_one le_rfl
  by_contra hne
  have hlt : cbrt 1 < 1 := lt_of_le_of_ne hle hne
  have : cbrt 1 ^ 3 < 1 := pow_lt_one₀ hpos.le hlt (by norm_num)
  linarith

/-- A cube root below one comes from a number below one. -/
theorem IsCubeRoot.eq_one_iff {cbrt : α → α} (hc : IsCubeRoot cbrt) {x : α} (hx : 0 ≤ x) :
    cbrt x = 1 ↔ x = 1 := by
  constructor
  · intro h
    have h3 : cbrt x ^ 3 = x := hc x hx
    rw [h] at h3
    rw [← h3]
    norm_num
  · intro h
    rw [h]
    exact hc.one

/-- No mesh is pushed when the filled volume is not positive. -/
theorem fillMeshes_of_nonpos (pi : α) (cbrt : α → α) (g : SiloDims α) (p : α)
    (hF : filledVolume pi g p ≤ 0) : fillMeshes pi cbrt g p = [] := by
  have h : ¬ (filledVolume pi g p > 0) := not_lt.mpr hF
  simp [fillMeshes, coneStage, cylinderStage, h]

/-- Only the cone mesh is pushed when the filled volume fits in the cone. -/
theorem fillMeshes_of_le_cone (pi : α) (cbrt : α → α) (g : SiloDims α) (p : α)
    (hF : 0 < filledVolume pi g p) (hle : filledVolume pi g p ≤ coneVolume pi g) :
    fillMeshes pi cbrt g p = [bottomConeFillMesh pi cbrt g (filledVolume pi g p)] := by
  have hcv : 0 < coneVolume pi g := lt_of_lt_of_le hF hle
  simp [fillMeshes, coneStage, cylinderStage, hF, hcv, min_eq_left hle]

/-- Both meshes are pushed when the filled volume exceeds the cone. -/
theorem fillMeshes_of_gt_cone (pi : α) (cbrt : α → α) (g : SiloDims α) (p : α)
    (hcv : 0 < coneVolume pi g) (hyv : 0 < cylinderVolume pi g)
    (hgt : coneVolume pi g < filledVolume pi g p) :
    fillMeshes pi cbrt g p =
      [bottomConeFillMesh pi cbrt g (coneVolume pi g),
        cylinderFillMesh pi g
          (min (filledVolume pi g p - coneVolume pi g) (cylinderVolume pi g))] := by
  have hF : 0 < filledVolume pi g p := lt_trans hcv hgt
  have hrem : 0 < filledVolume pi g p - coneVolume pi g := sub_pos.mpr hgt
  simp [fillMeshes, coneStage, cylinderStage, hF, hcv, hyv, min_eq_right hgt.le, hrem]

/-- The cone mesh built for a volume `v` has volume `v`. -/
theorem volume_bottomConeFillMesh {pi : α} (hpi : 0 < pi) {cbrt : α → α}
    (hc : IsCubeRoot cbrt) {g : SiloDims α} (hg : ValidDims g) {v : α} (hv : 0 ≤ v) :
    (bottomConeFillMesh pi cbrt g v).geometry.volume pi = v := by
  have hcv := coneVolume_pos hpi hg
  have hh : g.coneHeight ≠ 0 := ne_of_gt hg.1
  have h3 : cbrt (v / coneVolume pi g) ^ 3 = v / coneVolume pi g :=
    hc _ (div_nonneg hv hcv.le)
  have hv2 : v = coneVolume pi g * cbrt (v / coneVolume pi g) ^ 3 := by
    rw [h3]
    field_simp
  simp only [bottomConeFillMesh, Geometry.volume]
  conv_rhs => rw [hv2]
  generalize cbrt (v / coneVolume pi g) = c
  unfold coneVolume
  field_simp
  ring

/-- The cylinder mesh built for a volume `v` has volume `v`. -/
theorem volume_cylinderFillMesh {pi : α} (hpi : 0 < pi) {g : SiloDims α} (hg : ValidDims g)
    (v : α) : (cylinderFillMesh pi g v).geometry.volume pi = v := by
  have hr := fillCylinderRadius_pos hg
  simp only [cylinderFillMesh, Geometry.volume]
  field_simp
  ring

/-- The filled volume is the percentage times a hundredth of the total volume. -/
theorem filledVolume_pos_iff {pi : α} (hpi : 0 < pi) {g : SiloDims α} (hg : ValidDims g)
    (p : α) : 0 < filledVolume pi g p ↔ 0 < p := by
  have ht := totalVolume_pos hpi hg
  unfold filledVolume
  constructor
  · intro h
    by_contra hp
    have : p / 100 ≤ 0 := by linarith [not_lt.mp hp]
    have := mul_nonpos_of_nonpos_of_nonneg this ht.le
    linarith
  · intro h
    positivity

/-- The combined volume of the fill meshes, for every percentage. -/
theorem combinedVolume_fillMeshes {pi : α} (hpi : 0 < pi) {cbrt : α → α}
    (hc : IsCubeRoot cbrt) {g : SiloDims α} (hg : ValidDims g) (p : α) :
    combinedVolume pi (fillMeshes pi cbrt g p) =
      min (max (filledVolume pi g p) 0) (totalVolume pi g) := by
  have hcv := coneVolume_pos hpi hg
  have hyv := cylinderVolume_pos hpi hg
  have ht : totalVolume pi g = coneVolume pi g + cylinderVolume pi g := rfl
  rcases le_or_lt (filledVolume pi g p) 0 with h0 | h0
  · rw [fillMeshes_of_nonpos pi cbrt g p h0, max_eq_right h0,
      min_eq_left (by linarith)]
    simp [combinedVolume]
  · rcases le_or_lt (filledVolume pi g p) (coneVolume pi g) with h1 | h1
    · rw [fillMeshes_of_le_cone pi cbrt g p h0 h1, max_eq_left h0.le,
        min_eq_left (by linarith)]
      simp [combinedVolume, volume_bottomConeFillMesh hpi hc hg h0.le]
    · rw [fillMeshes_of_gt_cone pi cbrt g p hcv hyv h1, max_eq_left h0.le]
      simp only [combinedVolume, List.map_cons, List.map_nil, List.sum_cons, List.sum_nil,
        volume_bottomConeFillMesh hpi hc hg hcv.le, volume_cylinderFillMesh hpi hg, add_zero]
      rcases le_or_lt (filledVolume pi g p - coneVolume pi g) (cylinderVolume pi g)
        with h2 | h2
      · rw [min_eq_left h2, min_eq_left (by linarith)]
        ring
      · rw [min_eq_right h2.le, min_eq_right (by linarith)]
        exact ht.symm

end Lemmas

/-- The real function `x ^ (1/3)` is a cube root on the non-negative reals. -/
theorem isCubeRoot_rpow : IsCubeRoot (fun x : ℝ => x ^ ((1 : ℝ) / 3)) := by
  intro x hx
  show (x ^ ((1 : ℝ) / 3)) ^ 3 = x
  rw [← Real.rpow_natCast, ← Real.rpow_mul hx]
  norm_num

/-- At full cone volume the cone mesh has the full height and the full fill radius. -/
theorem bottomConeFillMesh_full {α : Type} [LinearOrderedField α] {pi : α} (hpi : 0 < pi)
    {cbrt : α → α} (hc : IsCubeRoot cbrt) {g : SiloDims α} (hg : ValidDims g) :
    bottomConeFillMesh pi cbrt g (coneVolume pi g) =
      { key := "bottom-cone-fill"
        position := (0, -(g.cylinderHeight / 2) - g.coneHeight + g.coneHeight / 2, 0)
        rotation := (pi, 0, 0)
        geometry := Geometry.coneGeometry (fillConeRadius g) g.coneHeight 32 } := by
  have hcv := coneVolume_pos hpi hg
  have hh : g.coneHeight ≠ 0 := ne_of_gt hg.1
  simp only [bottomConeFillMesh, div_self (ne_of_gt hcv), hc.one, mul_one, div_self hh]

/-- At full cylinder volume the cylinder mesh has the full height. -/
theorem cylinderFillMesh_full {α : Type} [LinearOrderedField α] {pi : α} (hpi : 0 < pi)
    {g : SiloDims α} (hg : ValidDims g) :
    cylinderFillMesh pi g (cylinderVolume pi g) =
      { key := "cylinder-fill"
        position := (0, -g.cylinderHeight / 2 + g.cylinderHeight / 2, 0)
        rotation := (0, 0, 0)
        geometry :=
          Geometry.cylinderGeometry (fillCylinderRadius g) (fillCylinderRadius g)
            g.cylinderHeight 32 } := by
  have hr := fillCylinderRadius_pos hg
  have hd : cylinderVolume pi g / (pi * fillCylinderRadius g * fillCylinderRadius g) =
      g.cylinderHeight := by
    unfold cylinderVolume
    field_simp
  simp only [cylinderFillMesh, hd]

/-- The fill meshes for a filled volume of at least the total volume. -/
theorem fillMeshes_of_ge_total {α : Type} [LinearOrderedField α] {pi : α} (hpi : 0 < pi)
    (cbrt : α → α) {g : SiloDims α} (hg : ValidDims g) (p : α)
    (hF : totalVolume pi g ≤ filledVolume pi g p) :
    fillMeshes pi cbrt g p =
      [bottomConeFillMesh pi cbrt g (coneVolume pi g),
        cylinderFillMesh pi g (cylinderVolume pi g)] := by
  have hcv := coneVolume_pos hpi hg
  have hyv := cylinderVolume_pos hpi hg
  have ht : totalVolume pi g = coneVolume pi g + cylinderVolume pi g := rfl
  rw [fillMeshes_of_gt_cone pi cbrt g p hcv hyv (by linarith), min_eq_right (by linarith)]

/-- Every fill mesh is the cone mesh or the cylinder mesh of some volume. -/
theorem mem_fillMeshes {α : Type} [LinearOrderedField α] {pi : α} {cbrt : α → α}
    {g : SiloDims α} {p : α} {m : Mesh α} (hm : m ∈ fillMeshes pi cbrt g p) :
    (∃ v, m = bottomConeFillMesh pi cbrt g v) ∨ (∃ v, m = cylinderFillMesh pi g v) := by
  simp only [fillMeshes, coneStage, cylinderStage, List.mem_append] at hm
  rcases hm with hm | hm
  · split_ifs at hm
    · exact Or.inl ⟨_, List.mem_singleton.mp hm⟩
    · simp at hm
  · split_ifs at hm
    · exact Or.inr ⟨_, List.mem_singleton.mp hm⟩
    · simp at hm
    · exact Or.inr ⟨_, List.mem_singleton.mp hm⟩
    · simp at hm

/-- For a positive filled volume the first mesh is the cone mesh of the volume
`min filledVolume coneVolume`, and no later mesh is a cone. -/
theorem fillMeshes_head {α : Type} [LinearOrderedField α] {pi : α} (hpi : 0 < pi)
    (cbrt : α → α) {g : SiloDims α} (hg : ValidDims g) (p : α)
    (hF : 0 < filledVolume pi g p) :
    ∃ rest, fillMeshes pi cbrt g p =
        bottomConeFillMesh pi cbrt g (min (filledVolume pi g p) (coneVolume pi g)) :: rest ∧
      ∀ m ∈ rest, m.geometry.isCone = false := by
  have hcv := coneVolume_pos hpi hg
  have hyv := cylinderVolume_pos hpi hg
  rcases le_or_lt (filledVolume pi g p) (coneVolume pi g) with h1 | h1
  · refine ⟨[], ?_, by simp⟩
    rw [fillMeshes_of_le_cone pi cbrt g p hF h1, min_eq_left h1]
  · refine ⟨[cylinderFillMesh pi g
      (min (filledVolume pi g p - coneVolume pi g) (cylinderVolume pi g))], ?_, ?_⟩
    · rw [fillMeshes_of_gt_cone pi cbrt g p hcv hyv h1, min_eq_right h1.le]
    · intro m hm
      rw [List.mem_singleton.mp hm]
      rfl

/-- In the silo the cone holds less than the cylinder. -/
theorem coneVolume_siloDims_lt :
    coneVolume Real.pi (siloDims : SiloDims ℝ) < cylinderVolume Real.pi siloDims := by
  have hpi := Real.pi_pos
  have h : cylinderVolume Real.pi (siloDims : SiloDims ℝ) - coneVolume Real.pi siloDims =
      Real.pi * ((4.69 / 2 - 0.05) * (4.69 / 2 - 0.05) * (13.30 - 3.29 / 3)) := by
    simp only [cylinderVolume, coneVolume, fillCylinderRadius, fillConeRadius, siloDims]
    ring
  have h2 : 0 < Real.pi * (((4.69 : ℝ) / 2 - 0.05) * (4.69 / 2 - 0.05) * (13.30 - 3.29 / 3)) :=
    mul_pos hpi (by norm_num)
  linarith

/-- In the silo half of the total volume exceeds the cone. -/
theorem coneVolume_siloDims_lt_filled :
    coneVolume Real.pi (siloDims : SiloDims ℝ) < filledVolume Real.pi siloDims 50 := by
  have h := coneVolume_siloDims_lt
  simp only [filledVolume, totalVolume]
  linarith

/-- For a percentage in `[0, 100]` the combined volume is that fraction of the total. -/
theorem combinedVolume_fillMeshes_of_range {α : Type} [LinearOrderedField α] {pi : α}
    (hpi : 0 < pi) {cbrt : α → α} (hc : IsCubeRoot cbrt) {g : SiloDims α} (hg : ValidDims g)
    (p : α) (h0 : 0 ≤ p) (h100 : p ≤ 100) :
    combinedVolume pi (fillMeshes pi cbrt g p) = p / 100 * totalVolume pi g := by
  have ht := totalVolume_pos hpi hg
  rw [combinedVolume_fillMeshes hpi hc hg p]
  have hF : filledVolume pi g p = p / 100 * totalVolume pi g := rfl
  have h1 : 0 ≤ p / 100 * totalVolume pi g := by positivity
  have h2 : p / 100 * totalVolume pi g ≤ totalVolume pi g := by
    have : p / 100 ≤ 1 := by linarith
    calc p / 100 * totalVolume pi g ≤ 1 * totalVolume pi g :=
          mul_le_mul_of_nonneg_right this ht.le
      _ = totalVolume pi g := one_mul _
  rw [hF, max_eq_left h1, min_eq_left h2]

/-- The frame update in closed form, also when displayed and target coincide. -/
theorem animatorTick_eq {α : Type} [LinearOrderedField α] (t d delta : α) :
    animatorTick t d delta = d + (t - d) * 0.5 * delta := by
  unfold animatorTick
  split_ifs with h
  · rfl
  · rw [not_not] at h
    rw [h]
    ring

/-- The distance to the target after one frame. -/
theorem animatorTick_sub {α : Type} [LinearOrderedField α] (t d delta : α) :
    t - animatorTick t d delta = (1 - delta / 2) * (t - d) := by
  rw [animatorTick_eq]
  ring

/-- Frames with one target and one elapsed time: the distance to the target shrinks by
the factor `1 - delta / 2` in each frame. -/
theorem animatorFrames_replicate {α : Type} [LinearOrderedField α] (t delta : α) (n : Nat)
    (d : α) :
    t - animatorFrames (List.replicate n (t, delta)) d = (1 - delta / 2) ^ n * (t - d) := by
  induction n generalizing d with
  | zero => simp [animatorFrames]
  | succ k ih =>
    rw [List.replicate_succ, animatorFrames, ih, animatorTick_sub]
    ring

/-- Frames are processed in order: a frame appended at the end acts on the value the
earlier frames have reached. -/
theorem animatorFrames_append {α : Type} [LinearOrderedField α] (fs gs : List (α × α))
    (d : α) : animatorFrames (fs ++ gs) d = animatorFrames gs (animatorFrames fs d) := by
  induction fs generalizing d with
  | nil => rfl
  | cons f rest ih =>
    obtain ⟨t, delta⟩ := f
    simp only [List.cons_append, animatorFrames]
    exact ih _

/-- Frames toward one target with elapsed times in `(0, 2)` never reach the target from
a different value. -/
theorem animatorFrames_ne_target {α : Type} [LinearOrderedField α] (t : α)
    (frames : List (α × α)) (d : α) (hne : d ≠ t)
    (hall : ∀ f ∈ frames, f.1 = t ∧ 0 < f.2 ∧ f.2 < 2) : animatorFrames frames d ≠ t := by
  induction frames generalizing d with
  | nil => exact hne
  | cons f rest ih =>
    obtain ⟨hf1, hf2, hf3⟩ := hall f (List.mem_cons_self _ _)
    obtain ⟨ft, fdelta⟩ := f
    simp only at hf1 hf2 hf3
    rw [animatorFrames, hf1]
    apply ih
    · intro heq
      have h5 := animatorTick_sub t d fdelta
      rw [heq, sub_self] at h5
      have h6 : 1 - fdelta / 2 ≠ 0 := by
        have : 0 < 1 - fdelta / 2 := by linarith
        exact ne_of_gt this
      have h7 : t - d ≠ 0 := sub_ne_zero.mpr (Ne.symm hne)
      exact (mul_ne_zero h6 h7) h5.symm
    · intro g hg
      exact hall g (List.mem_cons_of_mem _ hg)

/-- A property of the height that one frame preserves holds after any number of frames. -/
theorem FallingParticles.frames_forall {α : Type} [LinearOrderedField α] (p : α)
    (P : α → Prop) (hP : ∀ y, P y → P (FallingParticles.frameY p y)) (n : Nat)
    (positions : List (α × α × α)) (h0 : ∀ q ∈ positions, P q.2.1) :
    ∀ q ∈ FallingParticles.frames p n positions, P q.2.1 := by
  induction n generalizing positions with
  | zero => exact h0
  | succ k ih =>
    rw [FallingParticles.frames]
    apply ih
    intro q hq
    simp only [FallingParticles.frame, List.mem_map] at hq
    obtain ⟨q0, hq0, rfl⟩ := hq
    exact hP _ (h0 q0 hq0)

/-- The height of a particle after a frame is the recycling height or 0.01 lower than
before, and in the second case it is not below the fill line. -/
theorem FallingParticles.frameY_cases {α : Type} [LinearOrderedField α] (p y : α) :
    (y + -0.01 < FallingParticles.fillLine p ∧
        FallingParticles.frameY p y = FallingParticles.cylinderHeight / 2 + 1) ∨
      (FallingParticles.fillLine p ≤ y + -0.01 ∧ FallingParticles.frameY p y = y + -0.01) := by
  unfold FallingParticles.frameY FallingParticles.fillLine
  by_cases h : y + -0.01 <
      -FallingParticles.cylinderHeight / 2 + FallingParticles.fillHeight p
  · left
    exact ⟨h, by simp [h]⟩
  · right
    exact ⟨not_lt.mp h, by simp [h]⟩

/-- The fill line in numbers: `-9.94 + 16.59 * p / 100`. -/
theorem FallingParticles.fillLine_eq {α : Type} [LinearOrderedField α] (p : α) :
    FallingParticles.fillLine p = -9.94 + 16.59 * (p / 100) := by
  simp only [FallingParticles.fillLine, FallingParticles.fillHeight,
    FallingParticles.cylinderHeight, FallingParticles.coneHeight]
  ring

/-- A frame keeps the horizontal coordinates: every particle after `n` frames has the `x`
and `z` of a particle of the initial array. -/
theorem FallingParticles.frames_xz {α : Type} [LinearOrderedField α] (p : α) (n : Nat)
    (positions : List (α × α × α)) :
    ∀ q ∈ FallingParticles.frames p n positions,
      ∃ q0 ∈ positions, q.1 = q0.1 ∧ q.2.2 = q0.2.2 := by
  induction n generalizing positions with
  | zero =>
    intro q hq
    exact ⟨q, hq, rfl, rfl⟩
  | succ k ih =>
    intro q hq
    rw [FallingParticles.frames] at hq
    obtain ⟨q1, hq1, hx, hz⟩ := ih _ q hq
    simp only [FallingParticles.frame, List.mem_map] at hq1
    obtain ⟨q0, hq0, rfl⟩ := hq1
    exact ⟨q0, hq0, hx, hz⟩

/-- The squared distance from the axis of a particle at initialisation. -/
theorem FallingParticles.initPosition_sq (p : ℝ) (u : Draws ℝ) (hu : 0 ≤ u.uR) :
    (FallingParticles.initPosition Real.pi Real.sqrt Real.cos Real.sin p u).1 ^ 2 +
        (FallingParticles.initPosition Real.pi Real.sqrt Real.cos Real.sin p u).2.2 ^ 2 =
      u.uR * (0.9 * FallingParticles.cylinderRadius) ^ 2 := by
  simp only [FallingParticles.initPosition]
  have hs : Real.sqrt u.uR ^ 2 = u.uR := Real.sq_sqrt hu
  have hcs := Real.cos_sq_add_sin_sq (u.uTheta * Real.pi * 2)
  calc (Real.sqrt u.uR * FallingParticles.cylinderRadius * 0.9 *
          Real.cos (u.uTheta * Real.pi * 2)) ^ 2 +
        (Real.sqrt u.uR * FallingParticles.cylinderRadius * 0.9 *
          Real.sin (u.uTheta * Real.pi * 2)) ^ 2
      = Real.sqrt u.uR ^ 2 * (0.9 * FallingParticles.cylinderRadius) ^ 2 *
          (Real.cos (u.uTheta * Real.pi * 2) ^ 2 + Real.sin (u.uTheta * Real.pi * 2) ^ 2) := by
        ring
    _ = u.uR * (0.9 * FallingParticles.cylinderRadius) ^ 2 := by
        rw [hs, hcs, mul_one]

/-- The page `i + 1` of a paginated table holds the `pageSize` rows after the first
`i * pageSize`. -/
theorem DataTable.paginatedData_succ {ρ : Type} (rows : List ρ) (i pageSize : Nat) :
    DataTable.paginatedData true rows (i + 1) pageSize =
      (rows.drop (i * pageSize)).take pageSize := by
  have hstart : (((i + 1 : Nat) : Int) - 1) * (pageSize : Int) = ((i * pageSize : Nat) : Int) := by
    push_cast
    ring
  have hstop : ((i + 1 : Nat) : Int) * (pageSize : Int) =
      ((i * pageSize + pageSize : Nat) : Int) := by
    push_cast
    ring
  have h1 : ¬ (((i * pageSize : Nat) : Int) < 0) := not_lt.mpr (Int.natCast_nonneg _)
  have h2 : ¬ (((i * pageSize + pageSize : Nat) : Int) < 0) :=
    not_lt.mpr (Int.natCast_nonneg _)
  simp only [DataTable.paginatedData, jsSlice, if_true, hstart, hstop, if_neg h1, if_neg h2]
  rw [← Nat.cast_min, ← Nat.cast_min, Int.toNat_sub, Int.toNat_natCast]
  rcases le_or_lt (i * pageSize) rows.length with h | h
  · rw [min_eq_left h, List.take_eq_take, List.length_drop]
    omega
  · rw [min_eq_right h.le, List.drop_eq_nil_of_le le_rfl, List.drop_eq_nil_of_le h.le]
    simp

/-- The first `k` pages put one after the other are the first `k * pageSize` rows. -/
theorem DataTable.flatMap_pages {ρ : Type} (rows : List ρ) (pageSize k : Nat) :
    (List.range k).flatMap (fun i => DataTable.paginatedData true rows (i + 1) pageSize) =
      rows.take (k * pageSize) := by
  induction k with
  | zero => simp
  | succ j ih =>
    rw [List.range_succ, List.flatMap_append, ih, Nat.succ_mul, List.take_add]
    simp [DataTable.paginatedData_succ]

/-- A page index is below `totalPages` exactly when rows remain after the earlier pages. -/
theorem DataTable.lt_totalPages_iff {ρ : Type} (rows : List ρ) (pageSize : Nat)
    (hps : 1 ≤ pageSize) (i : Nat) :
    i < DataTable.totalPages true rows pageSize ↔ i * pageSize < rows.length := by
  have hp : (0 : ℚ) < (pageSize : ℚ) := by exact_mod_cast hps
  simp only [DataTable.totalPages, if_true]
  rw [Nat.lt_ceil, lt_div_iff₀ hp]
  exact_mod_cast Iff.rfl

/-- All rows fit in `totalPages` pages. -/
theorem DataTable.length_le_totalPages_mul {ρ : Type} (rows : List ρ) (pageSize : Nat)
    (hps : 1 ≤ pageSize) :
    rows.length ≤ DataTable.totalPages true rows pageSize * pageSize := by
  by_contra h
  have h2 := (DataTable.lt_totalPages_iff rows pageSize hps
    (DataTable.totalPages true rows pageSize)).mpr (not_le.mp h)
  exact lt_irrefl _ h2

/-- In the silo the filled volume is `p / 100 * (43.19 / 3.29)` cone volumes. -/
theorem filledVolume_siloDims_div (p : ℝ) :
    filledVolume Real.pi (siloDims : SiloDims ℝ) p / coneVolume Real.pi siloDims =
      p / 100 * (43.19 / 3.29) := by
  have hpi : Real.pi ≠ 0 := ne_of_gt Real.pi_pos
  simp only [filledVolume, totalVolume, coneVolume, cylinderVolume, fillConeRadius,
    fillCylinderRadius, siloDims]
  field_simp
  ring

/-- In the silo the height of the cylinder segment for the volume above the cone. -/
theorem cylinderFillHeight_siloDims (p : ℝ) :
    (filledVolume Real.pi (siloDims : SiloDims ℝ) p - coneVolume Real.pi siloDims) /
        (Real.pi * fillCylinderRadius (siloDims : SiloDims ℝ) *
          fillCylinderRadius (siloDims : SiloDims ℝ)) =
      p / 100 * (13.30 + 3.29 / 3) - 3.29 / 3 := by
  have hpi : Real.pi ≠ 0 := ne_of_gt Real.pi_pos
  simp only [filledVolume, totalVolume, coneVolume, cylinderVolume, fillConeRadius,
    fillCylinderRadius, siloDims]
  field_simp
  ring

/-- Highest point of the cone mesh built for a volume. -/
theorem surfaceY_bottomConeFillMesh (cbrt : ℝ → ℝ) (g : SiloDims ℝ) (v : ℝ) :
    (bottomConeFillMesh Real.pi cbrt g v).surfaceY Real.cos =
      -(g.cylinderHeight / 2) - g.coneHeight +
        g.coneHeight * cbrt (v / coneVolume Real.pi g) := by
  simp only [Mesh.surfaceY, Mesh.flatY, Mesh.axisWorldY, bottomConeFillMesh, Geometry.isCone,
    Geometry.height, Real.cos_pi, if_true]
  ring

/-- Highest point of the cylinder mesh built for a volume. -/
theorem surfaceY_cylinderFillMesh (g : SiloDims ℝ) (v : ℝ) :
    (cylinderFillMesh Real.pi g v).surfaceY Real.cos =
      -g.cylinderHeight / 2 +
        v / (Real.pi * fillCylinderRadius g * fillCylinderRadius g) := by
  simp only [Mesh.surfaceY, Mesh.topY, cylinderFillMesh, Geometry.isCone, Geometry.height]
  simp only [Bool.false_eq_true, if_false]
  ring

/-! ### Rounding -/

/-- A rational less than half away from an integer is rounded to it. -/
theorem roundHalfEven_of_lt (z : ℚ) (n : ℤ) (h1 : (n : ℚ) - 1 / 2 < z)
    (h2 : z < (n : ℚ) + 1 / 2) : roundHalfEven z = n := by
  unfold roundHalfEven
  rcases le_or_lt (n : ℚ) z with h | h
  · have hf : ⌊z⌋ = n := Int.floor_eq_iff.mpr ⟨h, by linarith⟩
    rw [hf, if_pos (by linarith)]
  · have hf : ⌊z⌋ = n - 1 :=
      Int.floor_eq_iff.mpr ⟨by push_cast; linarith, by push_cast; linarith⟩
    rw [hf]
    push_cast
    rw [if_neg (by linarith), if_pos (by linarith)]
    ring

/-- A tie is rounded to the even neighbour. -/
theorem roundHalfEven_tie (f : ℤ) :
    roundHalfEven ((f : ℚ) + 1 / 2) = if f % 2 = 0 then f else f + 1 := by
  have hf : ⌊(f : ℚ) + 1 / 2⌋ = f := Int.floor_eq_iff.mpr ⟨by linarith, by linarith⟩
  unfold roundHalfEven
  rw [hf, if_neg (by linarith), if_neg (by linarith)]

/-- Rounding to an integer moves a rational by at most one half. -/
theorem roundHalfEven_error (z : ℚ) : |(roundHalfEven z : ℚ) - z| ≤ 1 / 2 := by
  have h1 := Int.floor_le z
  have h2 := Int.lt_floor_add_one z
  unfold roundHalfEven
  rw [abs_le]
  split_ifs with ha hb hc
  · constructor <;> linarith
  · push_cast
    constructor <;> linarith
  · constructor <;> linarith
  · push_cast
    constructor <;> linarith

/-- The binary exponent of a positive rational between two consecutive powers of two. -/
theorem log_two_eq {x : ℚ} {k : ℤ} (h0 : 0 < x) (h1 : (2 : ℚ) ^ k ≤ x)
    (h2 : x < (2 : ℚ) ^ (k + 1)) : Int.log 2 x = k := by
  have hb : 1 < 2 := by norm_num
  apply le_antisymm
  · have := (Int.lt_zpow_iff_log_lt (R := ℚ) hb h0 (x := k + 1)).mp (by exact_mod_cast h2)
    omega
  · exact (Int.zpow_le_iff_le_log (R := ℚ) hb h0).mp (by exact_mod_cast h1)

/-- Rounding of a positive rational whose binary exponent is `k`. -/
theorem roundBits_eq_of_pos (prec : Nat) (x : ℚ) (k n : ℤ) (h0 : 0 < x)
    (h1 : (2 : ℚ) ^ k ≤ x) (h2 : x < (2 : ℚ) ^ (k + 1))
    (hn : roundHalfEven (x / 2 ^ (k - ((prec : ℤ) - 1))) = n) :
    roundBits prec x = (n : ℚ) * 2 ^ (k - ((prec : ℤ) - 1)) := by
  unfold roundBits
  rw [if_neg (ne_of_gt h0), abs_of_pos h0, log_two_eq h0 h1 h2, hn]

/-- Rounding to `prec` bits has relative error at most `2 ^ (-prec)`. -/
theorem roundBits_error (prec : Nat) (x : ℚ) :
    |roundBits prec x - x| ≤ |x| / 2 ^ prec := by
  unfold roundBits
  split_ifs with hx
  · simp [hx]
  · have hpos : 0 < |x| := abs_pos.mpr hx
    have hlog := Int.zpow_log_le_self (R := ℚ) (b := 2) (by norm_num) hpos
    set L := Int.log 2 |x| with hL
    set e := L - ((prec : ℤ) - 1) with he
    have h2e : (0 : ℚ) < 2 ^ e := by positivity
    have hz := roundHalfEven_error (x / 2 ^ e)
    have hsub : (roundHalfEven (x / 2 ^ e) : ℚ) * 2 ^ e - x =
        ((roundHalfEven (x / 2 ^ e) : ℚ) - x / 2 ^ e) * 2 ^ e := by
      field_simp
    rw [hsub, abs_mul, abs_of_pos h2e]
    have hpow : (2 : ℚ) ^ e = 2 ^ L / 2 ^ prec * 2 := by
      rw [he, zpow_sub₀ (by norm_num), zpow_sub₀ (by norm_num), zpow_natCast, zpow_one]
      field_simp
    calc |(roundHalfEven (x / 2 ^ e) : ℚ) - x / 2 ^ e| * 2 ^ e ≤ 1 / 2 * 2 ^ e :=
          mul_le_mul_of_nonneg_right hz h2e.le
      _ = 2 ^ L / 2 ^ prec := by rw [hpow]; ring
      _ ≤ |x| / 2 ^ prec := by
          apply div_le_div_of_nonneg_right _ (by positivity)
          exact_mod_cast hlog

/-- With no rounding the rounded fill solver is the exact one. -/
theorem Rounded.fillMeshes_id {α : Type} [LinearOrderedField α] (pi : α) (cbrt : α → α)
    (g : SiloDims α) (p : α) :
    Rounded.fillMeshes id pi cbrt g p = SiloCard.fillMeshes pi cbrt g p :=
  rfl

/-- With no rounding the rounded frame update is the exact one. -/
theorem Rounded.animatorTick_id {α : Type} [LinearOrderedField α] (t d delta : α) :
    Rounded.animatorTick id t d delta = SiloCard.animatorTick t d delta :=
  rfl

/-- The rounded fill solver sees the percentage only through the rounded quotient
`percentage / 100`. -/
theorem Rounded.fillMeshes_congr {α : Type} [LinearOrderedField α] (rnd : α → α) (pi : α)
    (cbrt : α → α) (g : SiloDims α) (p q : α) (h : rnd (p / 100) = rnd (q / 100)) :
    Rounded.fillMeshes rnd pi cbrt g p = Rounded.fillMeshes rnd pi cbrt g q := by
  unfold Rounded.fillMeshes Rounded.filledVolume
  rw [h]

/-- A property of the stored height that one frame preserves holds after any number of
frames. -/
theorem FallingParticles.framesStored_forall {α : Type} [LinearOrderedField α]
    (store : α → α) (p : α) (P : α → Prop)
    (hP : ∀ y, P y → P (FallingParticles.frameYStored store p y)) (n : Nat)
    (positions : List (α × α × α)) (h0 : ∀ q ∈ positions, P q.2.1) :
    ∀ q ∈ FallingParticles.framesStored store p n positions, P q.2.1 := by
  induction n generalizing positions with
  | zero => exact h0
  | succ k ih =>
    rw [FallingParticles.framesStored]
    apply ih
    intro q hq
    simp only [FallingParticles.frameStored, List.mem_map] at hq
    obtain ⟨q0, hq0, rfl⟩ := hq
    exact hP _ (h0 q0 hq0)

/-- A store with relative error at most `2 ^ (-24)` moves a value of size at most 20 by at
most 0.000002. -/
theorem store_close {α : Type} [LinearOrderedField α] (store : α → α)
    (hstore : ∀ x, |store x - x| ≤ |x| / 2 ^ 24) (x : α) (h1 : -20 ≤ x) (h2 : x ≤ 20) :
    x - 0.000002 ≤ store x ∧ store x ≤ x + 0.000002 := by
  have habs : |x| ≤ 20 := abs_le.mpr ⟨h1, h2⟩
  have hb : |x| / 2 ^ 24 ≤ 0.000002 := by
    rw [div_le_iff₀ (by positivity)]
    calc |x| ≤ 20 := habs
      _ ≤ 0.000002 * 2 ^ 24 := by norm_num
  have h := abs_le.mp ((hstore x).trans hb)
  constructor <;> linarith [h.1, h.2]

/-- With an exact store a frame acts on a height as in the exact model. -/
theorem FallingParticles.frameYStored_id {α : Type} [LinearOrderedField α] (p y : α) :
    FallingParticles.frameYStored id p y = FallingParticles.frameY p y :=
  rfl

/-! ## The fill solver -/

/-- C1: for every percentage `p` with `0 ≤ p ≤ 100` and all dimensions with positive
heights and radii larger than the inset (the silo's dimensions among them), the solids
emitted by the fill solver have combined volume exactly `p / 100 * totalVolume` over the
reals. -/
theorem fillMeshes_volume_exact (cbrt : ℝ → ℝ) (hc : IsCubeRoot cbrt) (g : SiloDims ℝ)
    (hg : ValidDims g) (p : ℝ) (h0 : 0 ≤ p) (h100 : p ≤ 100) :
    combinedVolume Real.pi (fillMeshes Real.pi cbrt g p) =
      p / 100 * totalVolume Real.pi g :=
  combinedVolume_fillMeshes_of_range Real.pi_pos hc hg p h0 h100

/-- Witness of C1: the silo's dimensions at 50 percent. -/
theorem fillMeshes_volume_exact_witness :
    combinedVolume Real.pi
        (fillMeshes Real.pi (fun x : ℝ => x ^ ((1 : ℝ) / 3)) siloDims 50) =
      50 / 100 * totalVolume Real.pi siloDims :=
  fillMeshes_volume_exact _ isCubeRoot_rpow siloDims validDims_siloDims 50
    (by norm_num) (by norm_num)

/-- C2: for every real `p`, also below 0 and above 100, the sequence of solids emitted
for `p` is identical to the sequence emitted for `min (max p 0) 100`. -/
theorem fillMeshes_clamp (cbrt : ℝ → ℝ) (g : SiloDims ℝ) (hg : ValidDims g) (p : ℝ) :
    fillMeshes Real.pi cbrt g p = fillMeshes Real.pi cbrt g (min (max p 0) 100) := by
  have ht := totalVolume_pos Real.pi_pos hg
  rcases le_or_lt p 0 with hp | hp
  · have hc0 : min (max p 0) 100 = 0 := by
      rw [max_eq_right hp]
      exact min_eq_left (by norm_num)
    rw [hc0, fillMeshes_of_nonpos Real.pi cbrt g p, fillMeshes_of_nonpos Real.pi cbrt g 0]
    · simp [filledVolume]
    · unfold filledVolume
      exact mul_nonpos_of_nonpos_of_nonneg (by linarith) ht.le
  · rcases le_or_lt p 100 with hq | hq
    · rw [max_eq_left hp.le, min_eq_left hq]
    · have hc1 : min (max p 0) 100 = 100 := by
        rw [max_eq_left hp.le]
        exact min_eq_right hq.le
      rw [hc1, fillMeshes_of_ge_total Real.pi_pos cbrt hg p,
        fillMeshes_of_ge_total Real.pi_pos cbrt hg 100]
      · simp [filledVolume]
      · unfold filledVolume
        have : (1 : ℝ) ≤ p / 100 := by linarith
        calc totalVolume Real.pi g = 1 * totalVolume Real.pi g := (one_mul _).symm
          _ ≤ p / 100 * totalVolume Real.pi g := mul_le_mul_of_nonneg_right this ht.le

/-- Witness of C2: the silo's dimensions at 150 percent and at -5 percent. -/
theorem fillMeshes_clamp_witness :
    Silo3D.fillMeshes Real.pi (fun x : ℝ => x ^ ((1 : ℝ) / 3)) 150 =
        Silo3D.fillMeshes Real.pi (fun x : ℝ => x ^ ((1 : ℝ) / 3)) (min (max 150 0) 100) ∧
      Silo3D.fillMeshes Real.pi (fun x : ℝ => x ^ ((1 : ℝ) / 3)) (-5) =
        Silo3D.fillMeshes Real.pi (fun x : ℝ => x ^ ((1 : ℝ) / 3)) (min (max (-5) 0) 100) :=
  ⟨fillMeshes_clamp _ siloDims validDims_siloDims 150,
    fillMeshes_clamp _ siloDims validDims_siloDims (-5)⟩

/-- Counterexample to C3: in double precision the percentages `50 + 2^-47` and
`50 + 2^-46`, two consecutive JavaScript numbers, have the same rounded quotient by 100,
`1/2 + 2^-53`, so for every `Math.cbrt` the solver emits the same list of solids for both
and the combined volume for the first is not less than for the second. -/
theorem fillMeshes_double_counterexample :
    ((50 : ℚ) + 1 / 2 ^ 47 < 50 + 1 / 2 ^ 46 ∧ (0 : ℚ) ≤ 50 + 1 / 2 ^ 47 ∧
        (50 : ℚ) + 1 / 2 ^ 46 ≤ 100) ∧
      (roundDouble (50 + 1 / 2 ^ 47) = 50 + 1 / 2 ^ 47 ∧
        roundDouble (50 + 1 / 2 ^ 46) = 50 + 1 / 2 ^ 46) ∧
      (roundDouble ((50 + 1 / 2 ^ 47) / 100) = 1 / 2 + 1 / 2 ^ 53 ∧
        roundDouble ((50 + 1 / 2 ^ 46) / 100) = 1 / 2 + 1 / 2 ^ 53) ∧
      ∀ cbrt : ℚ → ℚ,
        Rounded.fillMeshes roundDouble doublePi cbrt (Rounded.siloDims roundDouble)
            (50 + 1 / 2 ^ 47) =
          Rounded.fillMeshes roundDouble doublePi cbrt (Rounded.siloDims roundDouble)
            (50 + 1 / 2 ^ 46) ∧
        ¬ combinedVolume doublePi
            (Rounded.fillMeshes roundDouble doublePi cbrt (Rounded.siloDims roundDouble)
              (50 + 1 / 2 ^ 47)) <
          combinedVolume doublePi
            (Rounded.fillMeshes roundDouble doublePi cbrt (Rounded.siloDims roundDouble)
              (50 + 1 / 2 ^ 46)) := by
  have hp1 : roundDouble (50 + 1 / 2 ^ 47) = 50 + 1 / 2 ^ 47 := by
    unfold roundDouble
    rw [roundBits_eq_of_pos 53 _ 5 7036874417766401 (by norm_num) (by norm_num)
      (by norm_num) (roundHalfEven_of_lt _ _ (by norm_num) (by norm_num))]
    norm_num
  have hp2 : roundDouble (50 + 1 / 2 ^ 46) = 50 + 1 / 2 ^ 46 := by
    unfold roundDouble
    rw [roundBits_eq_of_pos 53 _ 5 7036874417766402 (by norm_num) (by norm_num)
      (by norm_num) (roundHalfEven_of_lt _ _ (by norm_num) (by norm_num))]
    norm_num
  have hq1 : roundDouble ((50 + 1 / 2 ^ 47) / 100) = 1 / 2 + 1 / 2 ^ 53 := by
    unfold roundDouble
    rw [roundBits_eq_of_pos 53 _ (-1) 4503599627370497 (by norm_num) (by norm_num)
      (by norm_num) (roundHalfEven_of_lt _ _ (by norm_num) (by norm_num))]
    norm_num
  have hq2 : roundDouble ((50 + 1 / 2 ^ 46) / 100) = 1 / 2 + 1 / 2 ^ 53 := by
    unfold roundDouble
    rw [roundBits_eq_of_pos 53 _ (-1) 4503599627370497 (by norm_num) (by norm_num)
      (by norm_num) (roundHalfEven_of_lt _ _ (by norm_num) (by norm_num))]
    norm_num
  refine ⟨⟨by norm_num, by norm_num, by norm_num⟩, ⟨hp1, hp2⟩, ⟨hq1, hq2⟩, ?_⟩
  intro cbrt
  have hlist := Rounded.fillMeshes_congr roundDouble doublePi cbrt
    (Rounded.siloDims roundDouble) (50 + 1 / 2 ^ 47) (50 + 1 / 2 ^ 46) (hq1.trans hq2.symm)
  refine ⟨hlist, ?_⟩
  rw [hlist]
  exact lt_irrefl _

/-- C3, amended: in exact real arithmetic the fill solver is strictly monotone: for
`p1 < p2`, both in `[0, 100]`, the combined volume of the solids emitted for `p1` is
strictly less than the combined volume of the solids emitted for `p2`. -/
theorem fillMeshes_volume_strictMono (cbrt : ℝ → ℝ) (hc : IsCubeRoot cbrt)
    (g : SiloDims ℝ) (hg : ValidDims g) (p1 p2 : ℝ) (h1 : 0 ≤ p1) (h12 : p1 < p2)
    (h2 : p2 ≤ 100) :
    combinedVolume Real.pi (fillMeshes Real.pi cbrt g p1) <
      combinedVolume Real.pi (fillMeshes Real.pi cbrt g p2) := by
  have ht := totalVolume_pos Real.pi_pos hg
  rw [combinedVolume_fillMeshes_of_range Real.pi_pos hc hg p1 h1 (by linarith),
    combinedVolume_fillMeshes_of_range Real.pi_pos hc hg p2 (by linarith) h2]
  exact mul_lt_mul_of_pos_right (by linarith) ht

/-- Witness of C3: the silo's dimensions at 25 and 75 percent. -/
theorem fillMeshes_volume_strictMono_witness :
    combinedVolume Real.pi
        (Silo3D.fillMeshes Real.pi (fun x : ℝ => x ^ ((1 : ℝ) / 3)) 25) <
      combinedVolume Real.pi
        (Silo3D.fillMeshes Real.pi (fun x : ℝ => x ^ ((1 : ℝ) / 3)) 75) :=
  fillMeshes_volume_strictMono _ isCubeRoot_rpow siloDims validDims_siloDims 25 75
    (by norm_num) (by norm_num) (by norm_num)

/-- C4: at percentage 0 the list `fillMeshes` is empty, for every geometry. -/
theorem fillMeshes_zero (cbrt : ℝ → ℝ) (g : SiloDims ℝ) :
    fillMeshes Real.pi cbrt g 0 = [] := by
  apply fillMeshes_of_nonpos
  simp [filledVolume]

/-- C5: at percentage 100 the solver emits exactly two solids, the cone segment of height
`coneHeight` and top radius `fillConeRadius` and then the cylinder segment of height
`cylinderHeight` and radius `fillCylinderRadius`, of combined volume `totalVolume`. -/
theorem fillMeshes_hundred (cbrt : ℝ → ℝ) (hc : IsCubeRoot cbrt) (g : SiloDims ℝ)
    (hg : ValidDims g) :
    fillMeshes Real.pi cbrt g 100 =
        [{ key := "bottom-cone-fill"
           position := (0, -(g.cylinderHeight / 2) - g.coneHeight + g.coneHeight / 2, 0)
           rotation := (Real.pi, 0, 0)
           geometry := Geometry.coneGeometry (fillConeRadius g) g.coneHeight 32 },
         { key := "cylinder-fill"
           position := (0, -g.cylinderHeight / 2 + g.cylinderHeight / 2, 0)
           rotation := (0, 0, 0)
           geometry :=
             Geometry.cylinderGeometry (fillCylinderRadius g) (fillCylinderRadius g)
               g.cylinderHeight 32 }] ∧
      combinedVolume Real.pi (fillMeshes Real.pi cbrt g 100) = totalVolume Real.pi g := by
  constructor
  · rw [fillMeshes_of_ge_total Real.pi_pos cbrt hg 100 (by simp [filledVolume]),
      bottomConeFillMesh_full Real.pi_pos hc hg, cylinderFillMesh_full Real.pi_pos hg]
  · rw [combinedVolume_fillMeshes Real.pi_pos hc hg 100]
    have ht := totalVolume_pos Real.pi_pos hg
    have hF : filledVolume Real.pi g 100 = totalVolume Real.pi g := by simp [filledVolume]
    rw [hF, max_eq_left ht.le, min_self]

/-- Witness of C5: the silo's dimensions. -/
theorem fillMeshes_hundred_witness :
    Silo3D.fillMeshes Real.pi (fun x : ℝ => x ^ ((1 : ℝ) / 3)) 100 =
        [{ key := "bottom-cone-fill"
           position := (0, -(13.30 / 2) - 3.29 + 3.29 / 2, 0)
           rotation := (Real.pi, 0, 0)
           geometry := Geometry.coneGeometry (4.69 / 2 - 0.05) 3.29 32 },
         { key := "cylinder-fill"
           position := (0, -13.30 / 2 + 13.30 / 2, 0)
           rotation := (0, 0, 0)
           geometry :=
             Geometry.cylinderGeometry (4.69 / 2 - 0.05) (4.69 / 2 - 0.05) 13.30 32 }] ∧
      combinedVolume Real.pi
          (Silo3D.fillMeshes Real.pi (fun x : ℝ => x ^ ((1 : ℝ) / 3)) 100) =
        totalVolume Real.pi siloDims :=
  fillMeshes_hundred _ isCubeRoot_rpow siloDims validDims_siloDims

/-- C6: whenever the filled volume `F` is positive the solver emits one cone segment,
first in the list; its height `h` satisfies `(h / coneHeight)^3 = min F coneVolume /
coneVolume` with `0 < h ≤ coneHeight`, its top radius is `fillConeRadius * h /
coneHeight`, and `h = coneHeight` exactly when `coneVolume ≤ F`.  For the silo's
dimensions `coneVolume ≤ 0.5 * totalVolume`, so at percentage 50 the cone segment has
the full height. -/
theorem coneSegment_shape (cbrt : ℝ → ℝ) (hc : IsCubeRoot cbrt) :
    (∀ (g : SiloDims ℝ) (p : ℝ), ValidDims g → 0 < filledVolume Real.pi g p →
      ∃ (h : ℝ) (rest : List (Mesh ℝ)),
        fillMeshes Real.pi cbrt g p =
          { key := "bottom-cone-fill"
            position := (0, -(g.cylinderHeight / 2) - g.coneHeight + h / 2, 0)
            rotation := (Real.pi, 0, 0)
            geometry :=
              Geometry.coneGeometry (fillConeRadius g * h / g.coneHeight) h 32 } :: rest ∧
        (∀ m ∈ rest, m.geometry.isCone = false) ∧
        (h / g.coneHeight) ^ 3 =
          min (filledVolume Real.pi g p) (coneVolume Real.pi g) / coneVolume Real.pi g ∧
        0 < h ∧ h ≤ g.coneHeight ∧
        (h = g.coneHeight ↔ coneVolume Real.pi g ≤ filledVolume Real.pi g p)) ∧
    coneVolume Real.pi (siloDims : SiloDims ℝ) ≤ 0.5 * totalVolume Real.pi siloDims ∧
    ∃ rest : List (Mesh ℝ),
      Silo3D.fillMeshes Real.pi cbrt 50 =
        { key := "bottom-cone-fill"
          position := (0, -(13.30 / 2) - 3.29 + 3.29 / 2, 0)
          rotation := (Real.pi, 0, 0)
          geometry := Geometry.coneGeometry (4.69 / 2 - 0.05) 3.29 32 } :: rest := by
  refine ⟨?_, ?_, ?_⟩
  · intro g p hg hF
    have hcv := coneVolume_pos Real.pi_pos hg
    have hh : g.coneHeight ≠ 0 := ne_of_gt hg.1
    obtain ⟨rest, hrest, hnc⟩ := fillMeshes_head Real.pi_pos cbrt hg p hF
    have hv : 0 < min (filledVolume Real.pi g p) (coneVolume Real.pi g) := lt_min hF hcv
    have hq : 0 < min (filledVolume Real.pi g p) (coneVolume Real.pi g) /
        coneVolume Real.pi g := div_pos hv hcv
    have hq1 : min (filledVolume Real.pi g p) (coneVolume Real.pi g) /
        coneVolume Real.pi g ≤ 1 := (div_le_one hcv).mpr (min_le_right _ _)
    refine ⟨g.coneHeight * cbrt (min (filledVolume Real.pi g p) (coneVolume Real.pi g) /
      coneVolume Real.pi g), rest, ?_, hnc, ?_, ?_, ?_, ?_⟩
    · rw [hrest]
      simp only [bottomConeFillMesh, mul_div_assoc]
    · rw [mul_div_cancel_left₀ _ hh]
      exact hc _ hq.le
    · exact mul_pos hg.1 (hc.pos hq)
    · calc g.coneHeight * cbrt (min (filledVolume Real.pi g p) (coneVolume Real.pi g) /
            coneVolume Real.pi g) ≤ g.coneHeight * 1 :=
            mul_le_mul_of_nonneg_left (hc.le_one hq hq1) hg.1.le
        _ = g.coneHeight := mul_one _
    · rw [mul_right_eq_self₀, or_iff_left hh, hc.eq_one_iff hq.le, div_eq_one_iff_eq
        (ne_of_gt hcv)]
      exact min_eq_right_iff
  · have h := coneVolume_siloDims_lt
    simp only [totalVolume]
    linarith
  · refine ⟨[cylinderFillMesh Real.pi siloDims
      (min (filledVolume Real.pi siloDims 50 - coneVolume Real.pi siloDims)
        (cylinderVolume Real.pi siloDims))], ?_⟩
    have hg : ValidDims (siloDims : SiloDims ℝ) := validDims_siloDims
    unfold Silo3D.fillMeshes
    rw [fillMeshes_of_gt_cone Real.pi cbrt siloDims 50 (coneVolume_pos Real.pi_pos hg)
      (cylinderVolume_pos Real.pi_pos hg) coneVolume_siloDims_lt_filled,
      bottomConeFillMesh_full Real.pi_pos hc hg]
    rfl

/-- Witness of C6: the silo's dimensions at 10 percent. -/
theorem coneSegment_shape_witness :
    ∃ (h : ℝ) (rest : List (Mesh ℝ)),
      fillMeshes Real.pi (fun x : ℝ => x ^ ((1 : ℝ) / 3)) siloDims 10 =
        { key := "bottom-cone-fill"
          position :=
            (0, -((siloDims : SiloDims ℝ).cylinderHeight / 2) -
              (siloDims : SiloDims ℝ).coneHeight + h / 2, 0)
          rotation := (Real.pi, 0, 0)
          geometry :=
            Geometry.coneGeometry
              (fillConeRadius (siloDims : SiloDims ℝ) * h /
                (siloDims : SiloDims ℝ).coneHeight) h 32 } :: rest ∧
      (∀ m ∈ rest, m.geometry.isCone = false) ∧
      (h / (siloDims : SiloDims ℝ).coneHeight) ^ 3 =
        min (filledVolume Real.pi siloDims 10) (coneVolume Real.pi siloDims) /
          coneVolume Real.pi siloDims ∧
      0 < h ∧ h ≤ (siloDims : SiloDims ℝ).coneHeight ∧
      (h = (siloDims : SiloDims ℝ).coneHeight ↔
        coneVolume Real.pi siloDims ≤ filledVolume Real.pi siloDims 10) :=
  (coneSegment_shape _ isCubeRoot_rpow).1 siloDims 10 validDims_siloDims
    ((filledVolume_pos_iff Real.pi_pos validDims_siloDims 10).mpr (by norm_num))

/-- C7: for every percentage for which the solver emits a cylinder segment `m`, the list
is a cone segment of full height `coneHeight` followed by `m`; the height of `m` is
`h = v / (pi * fillCylinderRadius^2)` with `v = min (F - coneVolume) cylinderVolume` and
`0 < h ≤ cylinderHeight`; `m` extends from `-cylinderHeight/2` to `-cylinderHeight/2 + h`,
and its base is at the height of the flat top of the cone segment. -/
theorem cylinderSegment_placement (cbrt : ℝ → ℝ) (hc : IsCubeRoot cbrt) (g : SiloDims ℝ)
    (hg : ValidDims g) (p : ℝ) (m : Mesh ℝ) (hm : m ∈ fillMeshes Real.pi cbrt g p)
    (hcyl : m.geometry.isCone = false) :
    ∃ (cone : Mesh ℝ) (h : ℝ),
      fillMeshes Real.pi cbrt g p = [cone, m] ∧
      cone.geometry = Geometry.coneGeometry (fillConeRadius g) g.coneHeight 32 ∧
      m = { key := "cylinder-fill"
            position := (0, -g.cylinderHeight / 2 + h / 2, 0)
            rotation := (0, 0, 0)
            geometry :=
              Geometry.cylinderGeometry (fillCylinderRadius g) (fillCylinderRadius g) h 32 } ∧
      h = min (filledVolume Real.pi g p - coneVolume Real.pi g) (cylinderVolume Real.pi g) /
          (Real.pi * fillCylinderRadius g ^ 2) ∧
      0 < h ∧ h ≤ g.cylinderHeight ∧
      m.bottomY = -g.cylinderHeight / 2 ∧ m.topY = -g.cylinderHeight / 2 + h ∧
      cone.flatY Real.cos = m.bottomY := by
  have hpi := Real.pi_pos
  have hcv := coneVolume_pos hpi hg
  have hyv := cylinderVolume_pos hpi hg
  have hr := fillCylinderRadius_pos hg
  rcases le_or_lt (filledVolume Real.pi g p) 0 with h0 | h0
  · rw [fillMeshes_of_nonpos Real.pi cbrt g p h0] at hm
    simp at hm
  rcases le_or_lt (filledVolume Real.pi g p) (coneVolume Real.pi g) with h1 | h1
  · rw [fillMeshes_of_le_cone Real.pi cbrt g p h0 h1, List.mem_singleton] at hm
    rw [hm] at hcyl
    simp [bottomConeFillMesh, Geometry.isCone] at hcyl
  have hlist := fillMeshes_of_gt_cone Real.pi cbrt g p hcv hyv h1
  rw [hlist] at hm
  have hmeq : m = cylinderFillMesh Real.pi g
      (min (filledVolume Real.pi g p - coneVolume Real.pi g) (cylinderVolume Real.pi g)) := by
    rcases List.mem_cons.mp hm with hm1 | hm1
    · rw [hm1] at hcyl
      simp [bottomConeFillMesh, Geometry.isCone] at hcyl
    · exact List.mem_singleton.mp hm1
  have hv : 0 < min (filledVolume Real.pi g p - coneVolume Real.pi g)
      (cylinderVolume Real.pi g) := lt_min (sub_pos.mpr h1) hyv
  have hd : 0 < Real.pi * fillCylinderRadius g * fillCylinderRadius g := by positivity
  have hle : min (filledVolume Real.pi g p - coneVolume Real.pi g)
      (cylinderVolume Real.pi g) / (Real.pi * fillCylinderRadius g * fillCylinderRadius g) ≤
      g.cylinderHeight := by
    rw [div_le_iff₀ hd]
    calc min (filledVolume Real.pi g p - coneVolume Real.pi g) (cylinderVolume Real.pi g)
        ≤ cylinderVolume Real.pi g := min_le_right _ _
      _ = g.cylinderHeight * (Real.pi * fillCylinderRadius g * fillCylinderRadius g) := by
          unfold cylinderVolume
          ring
  refine ⟨bottomConeFillMesh Real.pi cbrt g (coneVolume Real.pi g),
    min (filledVolume Real.pi g p - coneVolume Real.pi g) (cylinderVolume Real.pi g) /
      (Real.pi * fillCylinderRadius g * fillCylinderRadius g), ?_, ?_, ?_, ?_, ?_, hle, ?_, ?_, ?_⟩
  · rw [hlist, hmeq]
  · rw [bottomConeFillMesh_full hpi hc hg]
  · rw [hmeq]
    rfl
  · congr 1
    ring
  · exact div_pos hv hd
  · rw [hmeq]
    simp only [Mesh.bottomY, cylinderFillMesh, Geometry.height]
    ring
  · rw [hmeq]
    simp only [Mesh.topY, cylinderFillMesh, Geometry.height]
    ring
  · rw [hmeq, bottomConeFillMesh_full hpi hc hg]
    simp only [Mesh.flatY, Mesh.axisWorldY, Mesh.bottomY, cylinderFillMesh, Geometry.height,
      Real.cos_pi]
    ring

/-- Witness of C7: the cylinder segment of the silo at 50 percent. -/
theorem cylinderSegment_placement_witness :
    ∃ (cone : Mesh ℝ) (h : ℝ),
      fillMeshes Real.pi (fun x : ℝ => x ^ ((1 : ℝ) / 3)) siloDims 50 =
        [cone, cylinderFillMesh Real.pi siloDims
          (min (filledVolume Real.pi siloDims 50 - coneVolume Real.pi siloDims)
            (cylinderVolume Real.pi siloDims))] ∧
      cone.geometry =
        Geometry.coneGeometry (fillConeRadius (siloDims : SiloDims ℝ))
          (siloDims : SiloDims ℝ).coneHeight 32 ∧
      cylinderFillMesh Real.pi siloDims
          (min (filledVolume Real.pi siloDims 50 - coneVolume Real.pi siloDims)
            (cylinderVolume Real.pi siloDims)) =
        { key := "cylinder-fill"
          position := (0, -(siloDims : SiloDims ℝ).cylinderHeight / 2 + h / 2, 0)
          rotation := (0, 0, 0)
          geometry :=
            Geometry.cylinderGeometry (fillCylinderRadius (siloDims : SiloDims ℝ))
              (fillCylinderRadius (siloDims : SiloDims ℝ)) h 32 } ∧
      h = min (filledVolume Real.pi siloDims 50 - coneVolume Real.pi siloDims)
            (cylinderVolume Real.pi siloDims) /
          (Real.pi * fillCylinderRadius (siloDims : SiloDims ℝ) ^ 2) ∧
      0 < h ∧ h ≤ (siloDims : SiloDims ℝ).cylinderHeight ∧
      (cylinderFillMesh Real.pi siloDims
          (min (filledVolume Real.pi siloDims 50 - coneVolume Real.pi siloDims)
            (cylinderVolume Real.pi siloDims))).bottomY =
        -(siloDims : SiloDims ℝ).cylinderHeight / 2 ∧
      (cylinderFillMesh Real.pi siloDims
          (min (filledVolume Real.pi siloDims 50 - coneVolume Real.pi siloDims)
            (cylinderVolume Real.pi siloDims))).topY =
        -(siloDims : SiloDims ℝ).cylinderHeight / 2 + h ∧
      cone.flatY Real.cos =
        (cylinderFillMesh Real.pi siloDims
          (min (filledVolume Real.pi siloDims 50 - coneVolume Real.pi siloDims)
            (cylinderVolume Real.pi siloDims))).bottomY :=
  cylinderSegment_placement _ isCubeRoot_rpow siloDims validDims_siloDims 50 _
    (by
      rw [fillMeshes_of_gt_cone Real.pi _ siloDims 50
        (coneVolume_pos Real.pi_pos validDims_siloDims)
        (cylinderVolume_pos Real.pi_pos validDims_siloDims) coneVolume_siloDims_lt_filled]
      simp)
    rfl

/-- C8: every emitted cone segment of height `h` is centred at
`y = -(cylinderHeight/2) - coneHeight + h/2` and turned by `pi` about the x axis, so that
its apex is at `y = -cylinderHeight/2 - coneHeight` and its flat top at
`y = -cylinderHeight/2 - coneHeight + h`. -/
theorem coneSegment_placement (cbrt : ℝ → ℝ) (g : SiloDims ℝ) (p : ℝ) (m : Mesh ℝ)
    (hm : m ∈ fillMeshes Real.pi cbrt g p) (hcone : m.geometry.isCone = true) :
    m.position = (0, -(g.cylinderHeight / 2) - g.coneHeight + m.geometry.height / 2, 0) ∧
      m.rotation = (Real.pi, 0, 0) ∧
      m.apexY Real.cos = -g.cylinderHeight / 2 - g.coneHeight ∧
      m.flatY Real.cos = -g.cylinderHeight / 2 - g.coneHeight + m.geometry.height := by
  rcases mem_fillMeshes hm with ⟨v, hv⟩ | ⟨v, hv⟩
  · rw [hv]
    refine ⟨rfl, rfl, ?_, ?_⟩
    · simp only [Mesh.apexY, Mesh.axisWorldY, bottomConeFillMesh, Geometry.height, Real.cos_pi]
      ring
    · simp only [Mesh.flatY, Mesh.axisWorldY, bottomConeFillMesh, Geometry.height, Real.cos_pi]
      ring
  · rw [hv] at hcone
    simp [cylinderFillMesh, Geometry.isCone] at hcone

/-- Witness of C8: the cone segment of the silo at 50 percent. -/
theorem coneSegment_placement_witness :
    (bottomConeFillMesh Real.pi (fun x : ℝ => x ^ ((1 : ℝ) / 3)) siloDims
          (coneVolume Real.pi siloDims)).position =
        (0, -((siloDims : SiloDims ℝ).cylinderHeight / 2) - (siloDims : SiloDims ℝ).coneHeight +
          (bottomConeFillMesh Real.pi (fun x : ℝ => x ^ ((1 : ℝ) / 3)) siloDims
            (coneVolume Real.pi siloDims)).geometry.height / 2, 0) ∧
      (bottomConeFillMesh Real.pi (fun x : ℝ => x ^ ((1 : ℝ) / 3)) siloDims
          (coneVolume Real.pi siloDims)).rotation = (Real.pi, 0, 0) ∧
      (bottomConeFillMesh Real.pi (fun x : ℝ => x ^ ((1 : ℝ) / 3)) siloDims
          (coneVolume Real.pi siloDims)).apexY Real.cos =
        -(siloDims : SiloDims ℝ).cylinderHeight / 2 - (siloDims : SiloDims ℝ).coneHeight ∧
      (bottomConeFillMesh Real.pi (fun x : ℝ => x ^ ((1 : ℝ) / 3)) siloDims
          (coneVolume Real.pi siloDims)).flatY Real.cos =
        -(siloDims : SiloDims ℝ).cylinderHeight / 2 - (siloDims : SiloDims ℝ).coneHeight +
          (bottomConeFillMesh Real.pi (fun x : ℝ => x ^ ((1 : ℝ) / 3)) siloDims
            (coneVolume Real.pi siloDims)).geometry.height :=
  coneSegment_placement (fun x : ℝ => x ^ ((1 : ℝ) / 3)) siloDims 50 _
    (by
      rw [fillMeshes_of_gt_cone Real.pi (fun x : ℝ => x ^ ((1 : ℝ) / 3)) siloDims 50
        (coneVolume_pos Real.pi_pos validDims_siloDims)
        (cylinderVolume_pos Real.pi_pos validDims_siloDims) coneVolume_siloDims_lt_filled]
      exact List.mem_cons_self _ _)
    rfl

/-! ## The level animator -/

/-- C9: one frame tick with elapsed time `delta` maps the displayed percentage `d` and the
target `t` to `d + (t - d) * 0.5 * delta`, and leaves `d` unchanged when `d = t`. -/
theorem animatorTick_spec (t d delta : ℝ) :
    animatorTick t d delta = d + (t - d) * 0.5 * delta ∧ animatorTick t t delta = t :=
  ⟨animatorTick_eq t d delta, by simp [animatorTick]⟩

/-- Counterexample to C10: from displayed 0 and target 100, a tick of 3 seconds gives 150. -/
theorem animatorTick_range_counterexample :
    (0 : ℝ) < 3 ∧ (0 : ℝ) ≤ 0 ∧ (0 : ℝ) ≤ 100 ∧ (100 : ℝ) ≤ 100 ∧
      animatorTick (100 : ℝ) 0 3 = 150 ∧ ¬ animatorTick (100 : ℝ) 0 3 ≤ 100 := by
  have h : animatorTick (100 : ℝ) 0 3 = 150 := by
    simp only [animatorTick]
    norm_num
  refine ⟨by norm_num, le_rfl, by norm_num, le_rfl, h, ?_⟩
  rw [h]
  norm_num

/-- C10, amended: for every tick with `0 < delta ≤ 2`, if before the tick the displayed
percentage and the target are in `[0, 100]`, the displayed percentage after the tick is
in `[0, 100]`. -/
theorem animatorTick_range (t d delta : ℝ) (hdelta : 0 < delta) (hdelta2 : delta ≤ 2)
    (hd0 : 0 ≤ d) (hd1 : d ≤ 100) (ht0 : 0 ≤ t) (ht1 : t ≤ 100) :
    0 ≤ animatorTick t d delta ∧ animatorTick t d delta ≤ 100 := by
  rw [animatorTick_eq t d delta]
  have e : d + (t - d) * 0.5 * delta = (1 - delta / 2) * d + delta / 2 * t := by ring
  have h1 : 0 ≤ 1 - delta / 2 := by linarith
  have h2 : 0 ≤ delta / 2 := by linarith
  rw [e]
  constructor
  · positivity
  · nlinarith [mul_le_mul_of_nonneg_left hd1 h1, mul_le_mul_of_nonneg_left ht1 h2]

/-- Witness of C10, amended: displayed 0, target 100, a tick of 1/60 second. -/
theorem animatorTick_range_witness :
    0 ≤ animatorTick (100 : ℝ) 0 (1 / 60) ∧ animatorTick (100 : ℝ) 0 (1 / 60) ≤ 100 :=
  animatorTick_range 100 0 (1 / 60) (by norm_num) (by norm_num) le_rfl (by norm_num)
    (by norm_num) le_rfl

/-- C11: starting from displayed 0 with target 50, 600 frames of 1/60 second give the
displayed value `50 * (1 - (119/120)^600)`, which is within 0.5 of 50. -/
theorem animatorFrames_convergence :
    animatorFrames (List.replicate 600 ((50 : ℝ), 1 / 60)) 0 =
        50 * (1 - (119 / 120) ^ 600) ∧
      |50 - animatorFrames (List.replicate 600 ((50 : ℝ), 1 / 60)) 0| < 0.5 := by
  have h := animatorFrames_replicate (50 : ℝ) (1 / 60) 600 0
  have e : (1 - (1 : ℝ) / 60 / 2) = 119 / 120 := by norm_num
  rw [e] at h
  have hpow : ((119 : ℝ) / 120) ^ 600 < 1 / 100 := by norm_num
  have hpos : (0 : ℝ) < (119 / 120) ^ 600 := by positivity
  constructor
  · linarith
  · rw [h, abs_of_pos (by positivity)]
    linarith

/-- Counterexample to C12: in double precision, with target 50 and elapsed time 1, the
displayed value `50 - 2^-47` becomes exactly 50 in one frame; with elapsed time
`1/60` (as a double) the displayed value `50 - 60 * 2^-47` is left unchanged by a frame,
although it differs from the target. -/
theorem animatorTick_double_counterexample :
    (((0 : ℚ) < 1 ∧ (1 : ℚ) < 2) ∧ (50 : ℚ) - 1 / 2 ^ 47 ≠ 50 ∧
        roundDouble (50 - 1 / 2 ^ 47) = 50 - 1 / 2 ^ 47 ∧
        Rounded.animatorTick roundDouble 50 (50 - 1 / 2 ^ 47) 1 = 50) ∧
      (((0 : ℚ) < 4803839602528529 / 2 ^ 58 ∧ (4803839602528529 : ℚ) / 2 ^ 58 < 2) ∧
        roundDouble (1 / 60) = 4803839602528529 / 2 ^ 58 ∧
        (50 : ℚ) - 60 / 2 ^ 47 ≠ 50 ∧
        roundDouble (50 - 60 / 2 ^ 47) = 50 - 60 / 2 ^ 47 ∧
        Rounded.animatorTick roundDouble 50 (50 - 60 / 2 ^ 47) (4803839602528529 / 2 ^ 58) =
          50 - 60 / 2 ^ 47) := by
  have hspeed : roundDouble 0.5 = 1 / 2 := by
    unfold roundDouble
    rw [roundBits_eq_of_pos 53 _ (-1) 4503599627370496 (by norm_num) (by norm_num)
      (by norm_num) (roundHalfEven_of_lt _ _ (by norm_num) (by norm_num))]
    norm_num
  -- first frame: the displayed value reaches the target
  have hd : roundDouble (50 - 1 / 2 ^ 47) = 50 - 1 / 2 ^ 47 := by
    unfold roundDouble
    rw [roundBits_eq_of_pos 53 _ 5 7036874417766399 (by norm_num) (by norm_num)
      (by norm_num) (roundHalfEven_of_lt _ _ (by norm_num) (by norm_num))]
    norm_num
  have hdiff : roundDouble (50 - (50 - 1 / 2 ^ 47)) = 1 / 2 ^ 47 := by
    unfold roundDouble
    rw [roundBits_eq_of_pos 53 _ (-47) 4503599627370496 (by norm_num) (by norm_num)
      (by norm_num) (roundHalfEven_of_lt _ _ (by norm_num) (by norm_num))]
    norm_num
  have hhalf : roundDouble (1 / 2 ^ 47 * (1 / 2)) = 1 / 2 ^ 48 := by
    unfold roundDouble
    rw [roundBits_eq_of_pos 53 _ (-48) 4503599627370496 (by norm_num) (by norm_num)
      (by norm_num) (roundHalfEven_of_lt _ _ (by norm_num) (by norm_num))]
    norm_num
  have hstep : roundDouble (1 / 2 ^ 48 * 1) = 1 / 2 ^ 48 := by
    unfold roundDouble
    rw [roundBits_eq_of_pos 53 _ (-48) 4503599627370496 (by norm_num) (by norm_num)
      (by norm_num) (roundHalfEven_of_lt _ _ (by norm_num) (by norm_num))]
    norm_num
  have hsum : roundDouble (50 - 1 / 2 ^ 47 + 1 / 2 ^ 48) = 50 := by
    unfold roundDouble
    have hz : ((50 : ℚ) - 1 / 2 ^ 47 + 1 / 2 ^ 48) / 2 ^ ((5 : ℤ) - (((53 : ℕ) : ℤ) - 1)) =
        ((7036874417766399 : ℤ) : ℚ) + 1 / 2 := by norm_num
    rw [roundBits_eq_of_pos 53 _ 5 7036874417766400 (by norm_num) (by norm_num)
      (by norm_num) (by rw [hz, roundHalfEven_tie]; decide)]
    norm_num
  have htick : Rounded.animatorTick roundDouble 50 (50 - 1 / 2 ^ 47) 1 = 50 := by
    unfold Rounded.animatorTick
    rw [if_pos (by norm_num)]
    simp only []
    rw [hspeed, hdiff, hhalf, hstep, hsum]
  -- second frame: the displayed value does not move
  have hdelta : roundDouble (1 / 60) = 4803839602528529 / 2 ^ 58 := by
    unfold roundDouble
    rw [roundBits_eq_of_pos 53 _ (-6) 4803839602528529 (by norm_num) (by norm_num)
      (by norm_num) (roundHalfEven_of_lt _ _ (by norm_num) (by norm_num))]
    norm_num
  have hd2 : roundDouble (50 - 60 / 2 ^ 47) = 50 - 60 / 2 ^ 47 := by
    unfold roundDouble
    rw [roundBits_eq_of_pos 53 _ 5 7036874417766340 (by norm_num) (by norm_num)
      (by norm_num) (roundHalfEven_of_lt _ _ (by norm_num) (by norm_num))]
    norm_num
  have hdiff2 : roundDouble (50 - (50 - 60 / 2 ^ 47)) = 60 / 2 ^ 47 := by
    unfold roundDouble
    rw [roundBits_eq_of_pos 53 _ (-42) 8444249301319680 (by norm_num) (by norm_num)
      (by norm_num) (roundHalfEven_of_lt _ _ (by norm_num) (by norm_num))]
    norm_num
  have hhalf2 : roundDouble (60 / 2 ^ 47 * (1 / 2)) = 30 / 2 ^ 47 := by
    unfold roundDouble
    rw [roundBits_eq_of_pos 53 _ (-43) 8444249301319680 (by norm_num) (by norm_num)
      (by norm_num) (roundHalfEven_of_lt _ _ (by norm_num) (by norm_num))]
    norm_num
  have hstep2 : roundDouble (30 / 2 ^ 47 * (4803839602528529 / 2 ^ 58)) = 1 / 2 ^ 48 := by
    unfold roundDouble
    rw [roundBits_eq_of_pos 53 _ (-49) 9007199254740992 (by norm_num) (by norm_num)
      (by norm_num) (roundHalfEven_of_lt _ _ (by norm_num) (by norm_num))]
    norm_num
  have hsum2 : roundDouble (50 - 60 / 2 ^ 47 + 1 / 2 ^ 48) = 50 - 60 / 2 ^ 47 := by
    unfold roundDouble
    have hz : ((50 : ℚ) - 60 / 2 ^ 47 + 1 / 2 ^ 48) / 2 ^ ((5 : ℤ) - (((53 : ℕ) : ℤ) - 1)) =
        ((7036874417766340 : ℤ) : ℚ) + 1 / 2 := by norm_num
    rw [roundBits_eq_of_pos 53 _ 5 7036874417766340 (by norm_num) (by norm_num)
      (by norm_num) (by rw [hz, roundHalfEven_tie]; decide)]
    norm_num
  have htick2 : Rounded.animatorTick roundDouble 50 (50 - 60 / 2 ^ 47)
      (4803839602528529 / 2 ^ 58) = 50 - 60 / 2 ^ 47 := by
    unfold Rounded.animatorTick
    rw [if_pos (by norm_num)]
    simp only []
    rw [hspeed, hdiff2, hhalf2, hstep2, hsum2]
  exact ⟨⟨⟨by norm_num, by norm_num⟩, by norm_num, hd, htick⟩,
    ⟨by norm_num, by norm_num⟩, hdelta, by norm_num, hd2, htick2⟩

/-- C12, amended: in exact real arithmetic, for a frame with `0 < delta < 2` and displayed
different from the target, the displayed value after the frame lies strictly between the
displayed value before it and the target, the distance to the target strictly decreases,
and no finite number of such frames makes the displayed value equal to the target. -/
theorem animatorTick_strictly_between (t d delta : ℝ) (h0 : 0 < delta) (h2 : delta < 2)
    (hne : d ≠ t) :
    ((d < animatorTick t d delta ∧ animatorTick t d delta < t) ∨
        (t < animatorTick t d delta ∧ animatorTick t d delta < d)) ∧
      |t - animatorTick t d delta| < |t - d| ∧
      ∀ frames : List (ℝ × ℝ), (∀ f ∈ frames, f.1 = t ∧ 0 < f.2 ∧ f.2 < 2) →
        animatorFrames frames d ≠ t := by
  have hs := animatorTick_sub t d delta
  have hk0 : 0 < 1 - delta / 2 := by linarith
  have hk1 : 1 - delta / 2 < 1 := by linarith
  refine ⟨?_, ?_, ?_⟩
  · rcases lt_or_gt_of_ne hne with hlt | hgt
    · left
      have hpos : 0 < t - d := sub_pos.mpr hlt
      have h3 : 0 < (1 - delta / 2) * (t - d) := mul_pos hk0 hpos
      have h4 : (1 - delta / 2) * (t - d) < 1 * (t - d) := mul_lt_mul_of_pos_right hk1 hpos
      constructor <;> linarith
    · right
      have hpos : 0 < d - t := sub_pos.mpr hgt
      have h3 : 0 < (1 - delta / 2) * (d - t) := mul_pos hk0 hpos
      have h4 : (1 - delta / 2) * (d - t) < 1 * (d - t) := mul_lt_mul_of_pos_right hk1 hpos
      constructor <;> nlinarith
  · rw [hs, abs_mul, abs_of_pos hk0]
    have hpos : 0 < |t - d| := abs_pos.mpr (sub_ne_zero.mpr (Ne.symm hne))
    calc (1 - delta / 2) * |t - d| < 1 * |t - d| := mul_lt_mul_of_pos_right hk1 hpos
      _ = |t - d| := one_mul _
  · exact fun frames hall => animatorFrames_ne_target t frames d hne hall

/-- Witness of C12: displayed 0, target 50, a frame of 1/60 second. -/
theorem animatorTick_strictly_between_witness :
    (((0 : ℝ) < animatorTick 50 0 (1 / 60) ∧ animatorTick (50 : ℝ) 0 (1 / 60) < 50) ∨
        ((50 : ℝ) < animatorTick 50 0 (1 / 60) ∧ animatorTick (50 : ℝ) 0 (1 / 60) < 0)) ∧
      |50 - animatorTick (50 : ℝ) 0 (1 / 60)| < |50 - 0| ∧
      ∀ frames : List (ℝ × ℝ), (∀ f ∈ frames, f.1 = 50 ∧ 0 < f.2 ∧ f.2 < 2) →
        animatorFrames frames 0 ≠ 50 :=
  animatorTick_strictly_between 50 0 (1 / 60) (by norm_num) (by norm_num) (by norm_num)

/-- C13: a change of the target between frames does not touch the displayed value: the
next frame starts from the value `d` the earlier frames have reached and changes it by
exactly `0.5 * delta * (t2 - d)`, which for `d` and `t2` in `[0, 100]` is at most
`0.5 * delta * 100` in absolute value. -/
theorem animator_retarget (frames : List (ℝ × ℝ)) (d0 t2 delta : ℝ) (hdelta : 0 ≤ delta) :
    animatorFrames (frames ++ [(t2, delta)]) d0 =
        animatorTick t2 (animatorFrames frames d0) delta ∧
      animatorTick t2 (animatorFrames frames d0) delta - animatorFrames frames d0 =
        0.5 * delta * (t2 - animatorFrames frames d0) ∧
      (0 ≤ animatorFrames frames d0 → animatorFrames frames d0 ≤ 100 → 0 ≤ t2 → t2 ≤ 100 →
        |animatorTick t2 (animatorFrames frames d0) delta - animatorFrames frames d0| ≤
          0.5 * delta * 100) := by
  have hstep : animatorTick t2 (animatorFrames frames d0) delta - animatorFrames frames d0 =
      0.5 * delta * (t2 - animatorFrames frames d0) := by
    rw [animatorTick_eq]
    ring
  refine ⟨?_, hstep, ?_⟩
  · rw [animatorFrames_append]
    rfl
  · intro hd0 hd1 ht0 ht1
    rw [hstep, abs_mul, abs_of_nonneg (by positivity : (0 : ℝ) ≤ 0.5 * delta)]
    apply mul_le_mul_of_nonneg_left _ (by positivity)
    rw [abs_le]
    constructor <;> linarith

/-- Witness of C13: after one frame toward 100 the target changes to 20. -/
theorem animator_retarget_witness :
    animatorFrames ([((100 : ℝ), 1 / 60)] ++ [(20, 1 / 60)]) 0 =
        animatorTick 20 (animatorFrames [((100 : ℝ), 1 / 60)] 0) (1 / 60) ∧
      animatorTick 20 (animatorFrames [((100 : ℝ), 1 / 60)] 0) (1 / 60) -
          animatorFrames [((100 : ℝ), 1 / 60)] 0 =
        0.5 * (1 / 60) * (20 - animatorFrames [((100 : ℝ), 1 / 60)] 0) ∧
      |animatorTick 20 (animatorFrames [((100 : ℝ), 1 / 60)] 0) (1 / 60) -
          animatorFrames [((100 : ℝ), 1 / 60)] 0| ≤ 0.5 * (1 / 60) * 100 := by
  have h := animator_retarget [((100 : ℝ), 1 / 60)] 0 20 (1 / 60) (by norm_num)
  have hv : animatorFrames [((100 : ℝ), 1 / 60)] 0 = 5 / 6 := by
    simp only [animatorFrames, animatorTick_eq]
    norm_num
  refine ⟨h.1, h.2.1, h.2.2 ?_ ?_ (by norm_num) (by norm_num)⟩
  · rw [hv]
    norm_num
  · rw [hv]
    norm_num

/-! ## Geometry: volumes and the shell -/

/-- Counterexample to C15: the cylinder volume the solver uses for the silo is not
`pi * (4.69/2)^2 * 13.30`, the volume for the unreduced radius. -/
theorem cylinderVolume_counterexample :
    cylinderVolume Real.pi (siloDims : SiloDims ℝ) ≠ Real.pi * (4.69 / 2) ^ 2 * 13.30 := by
  intro h
  have hpi := Real.pi_pos
  have e : cylinderVolume Real.pi (siloDims : SiloDims ℝ) =
      Real.pi * ((4.69 / 2 - 0.05) ^ 2 * 13.30) := by
    simp only [cylinderVolume, fillCylinderRadius, siloDims]
    ring
  rw [e] at h
  have h2 : Real.pi * (((4.69 : ℝ) / 2) ^ 2 * 13.30 - (4.69 / 2 - 0.05) ^ 2 * 13.30) = 0 := by
    linarith
  have h3 : (0 : ℝ) < ((4.69 : ℝ) / 2) ^ 2 * 13.30 - (4.69 / 2 - 0.05) ^ 2 * 13.30 := by
    norm_num
  exact absurd h2 (ne_of_gt (mul_pos hpi h3))

/-- C15, amended: the volumes the solver uses are those of the geometry with both radii
reduced by the inset: `cylinderVolume = pi * (cylinderRadius - fillRadiusOffset)^2 *
cylinderHeight`, `coneVolume = (1/3) * pi * (coneRadius - fillRadiusOffset)^2 *
coneHeight` and `totalVolume = cylinderVolume + coneVolume`; for the silo both reduced
radii are `4.69/2 - 0.05`. -/
theorem volume_model (g : SiloDims ℝ) :
    cylinderVolume Real.pi g =
        Real.pi * (g.cylinderRadius - g.fillRadiusOffset) ^ 2 * g.cylinderHeight ∧
      coneVolume Real.pi g =
        (1 / 3) * Real.pi * (g.coneRadius - g.fillRadiusOffset) ^ 2 * g.coneHeight ∧
      totalVolume Real.pi g = cylinderVolume Real.pi g + coneVolume Real.pi g ∧
      fillCylinderRadius (siloDims : SiloDims ℝ) = 4.69 / 2 - 0.05 ∧
      fillConeRadius (siloDims : SiloDims ℝ) = 4.69 / 2 - 0.05 := by
  refine ⟨?_, ?_, ?_, rfl, rfl⟩
  · simp only [cylinderVolume, fillCylinderRadius]
    ring
  · simp only [coneVolume, fillConeRadius]
    ring
  · simp only [totalVolume]
    ring

/-- C16, the code at the failing input: at 100 percent the fill cone segment of the silo
contains the height `-7`, below the body cylinder, where its radius is
`(4.69/2 - 0.05) * (2.94/3.29)`, about 2.051, while the shell, there the cone mesh of
`SiloStructure`, which is not turned and has its apex at `-13.30/2`, has radius
`(4.69/2) * (0.35/3.29)`, about 0.249: the fill is not inside the shell.  The apex of the
fill cone is at `-13.30/2 - 3.29`, 0.2 above the centre of the discharge hopper. -/
theorem fill_cone_outside_shell :
    ∃ (m : Mesh ℝ) (rest : List (Mesh ℝ)),
      Silo3D.fillMeshes Real.pi (fun x : ℝ => x ^ ((1 : ℝ) / 3)) 100 = m :: rest ∧
      m.inExtent (-7) ∧
      ¬ (SiloStructure.bodyMesh (siloDims : SiloDims ℝ)).inExtent (-7) ∧
      (SiloStructure.coneMesh (siloDims : SiloDims ℝ)).inExtent (-7) ∧
      m.radiusAt Real.cos (-7) = (4.69 / 2 - 0.05) * (2.94 / 3.29) ∧
      SiloStructure.shellRadiusAt Real.cos (siloDims : SiloDims ℝ) (-7) =
        4.69 / 2 * (0.35 / 3.29) ∧
      ¬ m.radiusAt Real.cos (-7) <
        SiloStructure.shellRadiusAt Real.cos (siloDims : SiloDims ℝ) (-7) ∧
      (SiloStructure.coneMesh (siloDims : SiloDims ℝ)).apexY Real.cos = -13.30 / 2 ∧
      m.apexY Real.cos = -13.30 / 2 - 3.29 ∧
      SiloStructure.hopperY (siloDims : SiloDims ℝ) = m.apexY Real.cos - 0.2 := by
  have hg : ValidDims (siloDims : SiloDims ℝ) := validDims_siloDims
  have hlist := fillMeshes_of_ge_total Real.pi_pos (fun x : ℝ => x ^ ((1 : ℝ) / 3)) hg 100
    (by simp [filledVolume])
  rw [bottomConeFillMesh_full Real.pi_pos isCubeRoot_rpow hg] at hlist
  have hfill : Mesh.radiusAt Real.cos
      ({ key := "bottom-cone-fill"
         position := (0, -((siloDims : SiloDims ℝ).cylinderHeight / 2) -
           (siloDims : SiloDims ℝ).coneHeight + (siloDims : SiloDims ℝ).coneHeight / 2, 0)
         rotation := (Real.pi, 0, 0)
         geometry := Geometry.coneGeometry (fillConeRadius (siloDims : SiloDims ℝ))
           (siloDims : SiloDims ℝ).coneHeight 32 } : Mesh ℝ) (-7) =
      (4.69 / 2 - 0.05) * (2.94 / 3.29) := by
    simp only [Mesh.radiusAt, Mesh.apexY, Mesh.axisWorldY, Geometry.height, Real.cos_pi,
      siloDims, fillConeRadius]
    have e : (-7 : ℝ) - (-(13.30 / 2) - 3.29 + 3.29 / 2 + 3.29 / 2 * -1) = 2.94 := by norm_num
    rw [e, abs_of_pos (by norm_num : (0 : ℝ) < 2.94)]
  have hbody : ¬ ((SiloStructure.bodyMesh (siloDims : SiloDims ℝ)).bottomY ≤ (-7 : ℝ) ∧
      (-7 : ℝ) ≤ (SiloStructure.bodyMesh (siloDims : SiloDims ℝ)).topY) := by
    simp only [Mesh.bottomY, Mesh.topY, SiloStructure.bodyMesh, Geometry.height, siloDims]
    norm_num
  have hshell : SiloStructure.shellRadiusAt Real.cos (siloDims : SiloDims ℝ) (-7) =
      4.69 / 2 * (0.35 / 3.29) := by
    unfold SiloStructure.shellRadiusAt
    rw [if_neg hbody]
    simp only [Mesh.radiusAt, SiloStructure.coneMesh, Mesh.apexY, Mesh.axisWorldY,
      Geometry.height, Real.cos_zero, siloDims]
    have e : (-7 : ℝ) - (-13.30 / 2 - 3.29 / 2 + 3.29 / 2 * 1) = -0.35 := by norm_num
    rw [e, abs_of_neg (by norm_num : (-0.35 : ℝ) < 0)]
    norm_num
  refine ⟨_, _, hlist, ?_, hbody, ?_, hfill, hshell, ?_, ?_, ?_, ?_⟩
  · simp only [Mesh.inExtent, Mesh.bottomY, Mesh.topY, Geometry.height, siloDims]
    constructor <;> norm_num
  · simp only [Mesh.inExtent, Mesh.bottomY, Mesh.topY, SiloStructure.coneMesh,
      Geometry.height, siloDims]
    constructor <;> norm_num
  · rw [hfill, hshell]
    norm_num
  · simp only [SiloStructure.coneMesh, Mesh.apexY, Mesh.axisWorldY, Geometry.height,
      Real.cos_zero, siloDims]
    norm_num
  · simp only [Mesh.apexY, Mesh.axisWorldY, Geometry.height, Real.cos_pi, siloDims]
    norm_num
  · simp only [SiloStructure.hopperY, Mesh.apexY, Mesh.axisWorldY, Geometry.height,
      Real.cos_pi, siloDims]
    norm_num

/-! ## The particle field -/

/-- Counterexample to C17: at 0 percent a particle drawn with `uY = 1/2` starts at height
13.3 and is at 13.29 after one frame, above the top of the cylinder at 6.65. -/
theorem particle_bounds_counterexample :
    (FallingParticles.frames (0 : ℝ) 1
        (FallingParticles.init Real.pi Real.sqrt Real.cos Real.sin 0
          [(⟨1 / 2, 0, 0, 0⟩ : Draws ℝ)]).1).map (fun q => q.2.1) = [13.29] ∧
      ¬ (13.29 : ℝ) ≤ FallingParticles.cylinderHeight / 2 := by
  constructor
  · simp only [FallingParticles.frames, FallingParticles.frame, FallingParticles.init,
      FallingParticles.initPosition, FallingParticles.frameY, FallingParticles.fillHeight,
      FallingParticles.cylinderHeight, FallingParticles.coneHeight, List.map_cons,
      List.map_nil]
    norm_num
  · simp only [FallingParticles.cylinderHeight]
    norm_num

/-- C17, amended: with the `Float32Array` store of `positions` taken into account (any
store with relative error at most `2^-24`), for every fill percentage in `[0, 100)`, all
initial draws in `[0, 1)` and every number of frames, every stored particle height `y`
satisfies `-cylinderHeight/2 - coneHeight ≤ y ≤ cylinderHeight/2 + cylinderHeight + 0.01`. -/
theorem particle_bounds {α : Type} [LinearOrderedField α] (store : α → α)
    (hstore : ∀ x, |store x - x| ≤ |x| / 2 ^ 24) (pi : α) (sqrt cos sin : α → α) (p : α)
    (hp0 : 0 ≤ p) (hp1 : p < 100) (draws : List (Draws α))
    (hdraws : ∀ u ∈ draws, 0 ≤ u.uY ∧ u.uY < 1) (n : Nat) :
    ∀ q ∈ FallingParticles.framesStored store p n
        (FallingParticles.initStored store pi sqrt cos sin p draws),
      -FallingParticles.cylinderHeight / 2 - FallingParticles.coneHeight ≤ q.2.1 ∧
        q.2.1 ≤ FallingParticles.cylinderHeight / 2 + FallingParticles.cylinderHeight + 0.01 := by
  apply FallingParticles.framesStored_forall store p
    (fun y => -FallingParticles.cylinderHeight / 2 - FallingParticles.coneHeight ≤ y ∧
      y ≤ FallingParticles.cylinderHeight / 2 + FallingParticles.cylinderHeight + 0.01)
  · intro y hy
    have hline : -FallingParticles.cylinderHeight / 2 + FallingParticles.fillHeight p =
        -9.94 + 16.59 * (p / 100) := FallingParticles.fillLine_eq p
    simp only [FallingParticles.cylinderHeight, FallingParticles.coneHeight] at hy ⊢
    have hs := store_close store hstore (y + -0.01) (by linarith [hy.1]) (by linarith [hy.2])
    have h765 := store_close store hstore ((13.30 : α) / 2 + 1) (by norm_num) (by norm_num)
    unfold FallingParticles.frameYStored
    simp only [FallingParticles.cylinderHeight] at hline ⊢
    split_ifs with hrec
    · constructor <;> linarith [h765.1, h765.2]
    · have hge := not_lt.mp hrec
      rw [hline] at hge
      have : 0 ≤ 16.59 * (p / 100) := by positivity
      constructor <;> linarith [hs.2, hy.2]
  · intro q hq
    simp only [FallingParticles.initStored, FallingParticles.init, List.map_map,
      List.mem_map, Function.comp] at hq
    obtain ⟨u, hu, rfl⟩ := hq
    obtain ⟨hu0, hu1⟩ := hdraws u hu
    simp only [FallingParticles.initPosition, FallingParticles.cylinderHeight,
      FallingParticles.coneHeight]
    have hy0 : -6.65 ≤ u.uY * 13.30 - 13.30 / 2 + 13.30 * (1 - p / 100) := by nlinarith
    have hy1 : u.uY * 13.30 - 13.30 / 2 + 13.30 * (1 - p / 100) ≤ 19.95 := by nlinarith
    have hs := store_close store hstore
      (u.uY * 13.30 - 13.30 / 2 + 13.30 * (1 - p / 100)) (by linarith) (by linarith)
    constructor <;> linarith [hs.1, hs.2]

/-- Witness of C17, amended: the `Float32Array` rounding as store, 50 percent, one particle
with `uY = 1/2`, three frames. -/
theorem particle_bounds_witness :
    List.Forall
      (fun q : ℚ × ℚ × ℚ =>
        -FallingParticles.cylinderHeight / 2 - FallingParticles.coneHeight ≤ q.2.1 ∧
          q.2.1 ≤ FallingParticles.cylinderHeight / 2 + FallingParticles.cylinderHeight + 0.01)
      (FallingParticles.framesStored roundSingle (50 : ℚ) 3
        (FallingParticles.initStored roundSingle doublePi (fun x => x) (fun x => x)
          (fun x => x) 50 [(⟨1 / 2, 0, 0, 0⟩ : Draws ℚ)])) :=
  List.forall_iff_forall_mem.mpr
    (particle_bounds roundSingle (fun x => roundBits_error 24 x) doublePi (fun x => x)
      (fun x => x) (fun x => x) 50 (by norm_num) (by norm_num)
      [(⟨1 / 2, 0, 0, 0⟩ : Draws ℚ)]
      (by
        intro u hu
        rw [List.mem_singleton.mp hu]
        constructor <;> norm_num)
      3)

/-- C18: for every fill percentage `p ≤ 100` and every particle state, after a frame every
particle height is at least the fill line `-cylinderHeight/2 + ((cylinderHeight +
coneHeight) * (p/100) - coneHeight)`, and a particle whose decremented height is below the
line is put at `cylinderHeight/2 + 1`. -/
theorem particles_above_fill_line (p : ℝ) (hp : p ≤ 100) (positions : List (ℝ × ℝ × ℝ)) :
    (∀ q ∈ FallingParticles.frame p positions,
        -FallingParticles.cylinderHeight / 2 +
            ((FallingParticles.cylinderHeight + FallingParticles.coneHeight) * (p / 100) -
              FallingParticles.coneHeight) ≤ q.2.1) ∧
      ∀ y : ℝ,
        y + -0.01 < -FallingParticles.cylinderHeight / 2 +
            ((FallingParticles.cylinderHeight + FallingParticles.coneHeight) * (p / 100) -
              FallingParticles.coneHeight) →
          FallingParticles.frameY p y = FallingParticles.cylinderHeight / 2 + 1 := by
  have hline : -FallingParticles.cylinderHeight / 2 +
      ((FallingParticles.cylinderHeight + FallingParticles.coneHeight) * (p / 100) -
        FallingParticles.coneHeight) = FallingParticles.fillLine p := rfl
  rw [hline]
  constructor
  · intro q hq
    simp only [FallingParticles.frame, List.mem_map] at hq
    obtain ⟨q0, _, rfl⟩ := hq
    rcases FallingParticles.frameY_cases p q0.2.1 with ⟨_, h2⟩ | ⟨h1, h2⟩
    · show FallingParticles.fillLine p ≤ FallingParticles.frameY p q0.2.1
      rw [h2, FallingParticles.fillLine_eq]
      simp only [FallingParticles.cylinderHeight]
      linarith
    · show FallingParticles.fillLine p ≤ FallingParticles.frameY p q0.2.1
      rw [h2]
      exact h1
  · intro y hy
    rcases FallingParticles.frameY_cases p y with ⟨_, h2⟩ | ⟨h1, _⟩
    · exact h2
    · exact absurd hy (not_lt.mpr h1)

/-- Witness of C18: 50 percent, a particle at height -2 is recycled, one at 3 is not. -/
theorem particles_above_fill_line_witness :
    (∀ q ∈ FallingParticles.frame (50 : ℝ) [(0, -2, 0), (1, 3, 1)],
        -FallingParticles.cylinderHeight / 2 +
            ((FallingParticles.cylinderHeight + FallingParticles.coneHeight) * (50 / 100) -
              FallingParticles.coneHeight) ≤ q.2.1) ∧
      FallingParticles.frameY (50 : ℝ) (-2) = FallingParticles.cylinderHeight / 2 + 1 :=
  ⟨(particles_above_fill_line 50 (by norm_num) [(0, -2, 0), (1, 3, 1)]).1,
    (particles_above_fill_line 50 (by norm_num) []).2 (-2) (by
      simp only [FallingParticles.cylinderHeight, FallingParticles.coneHeight]
      norm_num)⟩

/-- Counterexample to C19: with target 50 and displayed 0 the particle field computes the
fill height for 50, which is 5.005, not the fill height for the displayed value 0. -/
theorem particleFillHeight_counterexample :
    (⟨50, 0⟩ : FillState ℝ).animatedFillPercentage ≠ (⟨50, 0⟩ : FillState ℝ).fillPercentage ∧
      Silo3D.particleFillHeight (⟨50, 0⟩ : FillState ℝ) = some 5.005 ∧
      Silo3D.particleFillHeight (⟨50, 0⟩ : FillState ℝ) ≠
        some ((FallingParticles.cylinderHeight + FallingParticles.coneHeight) *
          ((⟨50, 0⟩ : FillState ℝ).animatedFillPercentage / 100) -
            FallingParticles.coneHeight) := by
  have h : Silo3D.particleFillHeight (⟨50, 0⟩ : FillState ℝ) = some 5.005 := by
    simp only [Silo3D.particleFillHeight, Silo3D.fallingParticlesProp]
    rw [if_pos (by norm_num)]
    simp only [Option.map_some', FallingParticles.fillHeight, FallingParticles.cylinderHeight,
      FallingParticles.coneHeight]
    norm_num
  refine ⟨by norm_num, h, ?_⟩
  rw [h]
  simp only [FallingParticles.cylinderHeight, FallingParticles.coneHeight]
  norm_num

/-- C19, amended: the percentage the particle field uses is the target, the prop
`fillPercentage` of `Silo3D`, not `animatedFillPercentage`: whenever the field is rendered
(`fillPercentage < 100`) its fill height is `(cylinderHeight + coneHeight) *
(fillPercentage / 100) - coneHeight`. -/
theorem particleFillHeight_target (s : FillState ℝ) (h : s.fillPercentage < 100) :
    Silo3D.fallingParticlesProp s = some s.fillPercentage ∧
      Silo3D.particleFillHeight s =
        some ((FallingParticles.cylinderHeight + FallingParticles.coneHeight) *
          (s.fillPercentage / 100) - FallingParticles.coneHeight) := by
  simp only [Silo3D.particleFillHeight, Silo3D.fallingParticlesProp, if_pos h,
    Option.map_some', FallingParticles.fillHeight, and_self]

/-- Witness of C19, amended: target 50, displayed 0. -/
theorem particleFillHeight_target_witness :
    Silo3D.fallingParticlesProp (⟨50, 0⟩ : FillState ℝ) = some 50 ∧
      Silo3D.particleFillHeight (⟨50, 0⟩ : FillState ℝ) =
        some ((FallingParticles.cylinderHeight + FallingParticles.coneHeight) *
          (50 / 100) - FallingParticles.coneHeight) :=
  particleFillHeight_target ⟨50, 0⟩ (by norm_num)

/-- Counterexample to C20: at 0 percent two particles with fall speeds -0.035 and -0.0225
start at height 6.65 and are both at 6.64 after a frame: neither moved by its own fall
speed, and both moved by the same amount. -/
theorem particle_speed_counterexample :
    (FallingParticles.init Real.pi Real.sqrt Real.cos Real.sin (0 : ℝ)
        [⟨0, 0, 0, 1 / 2⟩, ⟨0, 0, 0, 1 / 4⟩]).2.map (fun v => v.2.1) = [-0.035, -0.0225] ∧
      (FallingParticles.init Real.pi Real.sqrt Real.cos Real.sin (0 : ℝ)
        [⟨0, 0, 0, 1 / 2⟩, ⟨0, 0, 0, 1 / 4⟩]).1.map (fun q => q.2.1) = [6.65, 6.65] ∧
      (FallingParticles.frame (0 : ℝ)
        (FallingParticles.init Real.pi Real.sqrt Real.cos Real.sin (0 : ℝ)
          [⟨0, 0, 0, 1 / 2⟩, ⟨0, 0, 0, 1 / 4⟩]).1).map (fun q => q.2.1) = [6.64, 6.64] ∧
      (6.64 : ℝ) - 6.65 ≠ -0.035 ∧ (6.64 : ℝ) - 6.65 ≠ -0.0225 := by
  refine ⟨?_, ?_, ?_, by norm_num, by norm_num⟩
  · simp only [FallingParticles.init, FallingParticles.initVelocity, List.map_cons,
      List.map_nil]
    norm_num
  · simp only [FallingParticles.init, FallingParticles.initPosition,
      FallingParticles.cylinderHeight, List.map_cons, List.map_nil]
    norm_num
  · simp only [FallingParticles.frame, FallingParticles.init, FallingParticles.initPosition,
      FallingParticles.frameY, FallingParticles.fillHeight, FallingParticles.cylinderHeight,
      FallingParticles.coneHeight, List.map_cons, List.map_nil]
    norm_num

/-- C20, amended: on every frame in which a particle is not recycled its height changes
by the constant -0.01, whatever fall speed was drawn for it, so two particles that are not
recycled move by the same amount in the same frame. -/
theorem particle_constant_speed (p y1 y2 : ℝ)
    (h1 : ¬ y1 + -0.01 < FallingParticles.fillLine p)
    (h2 : ¬ y2 + -0.01 < FallingParticles.fillLine p) :
    FallingParticles.frameY p y1 - y1 = -0.01 ∧
      FallingParticles.frameY p y1 - y1 = FallingParticles.frameY p y2 - y2 := by
  have e1 : FallingParticles.frameY p y1 = y1 + -0.01 := by
    rcases FallingParticles.frameY_cases p y1 with ⟨h, _⟩ | ⟨_, h⟩
    · exact absurd h h1
    · exact h
  have e2 : FallingParticles.frameY p y2 = y2 + -0.01 := by
    rcases FallingParticles.frameY_cases p y2 with ⟨h, _⟩ | ⟨_, h⟩
    · exact absurd h h2
    · exact h
  rw [e1, e2]
  constructor <;> ring

/-- Witness of C20, amended: 0 percent, particles at heights 6.65 and 2. -/
theorem particle_constant_speed_witness :
    FallingParticles.frameY (0 : ℝ) 6.65 - 6.65 = -0.01 ∧
      FallingParticles.frameY (0 : ℝ) 6.65 - 6.65 = FallingParticles.frameY (0 : ℝ) 2 - 2 :=
  particle_constant_speed 0 6.65 2
    (by
      rw [FallingParticles.fillLine_eq]
      norm_num)
    (by
      rw [FallingParticles.fillLine_eq]
      norm_num)

/-- C21: a particle drawn with `u` in `[0, 1)` and any azimuth starts at `x = r cos theta`,
`z = r sin theta` with `x^2 + z^2 = u * (0.9 * cylinderRadius)^2`, and after any number of
frames every particle satisfies `x^2 + z^2 < cylinderRadius^2`. -/
theorem particle_envelope (p : ℝ) (draws : List (Draws ℝ))
    (hdraws : ∀ u ∈ draws, 0 ≤ u.uR ∧ u.uR < 1) (n : Nat) :
    (∀ u ∈ draws,
        (FallingParticles.initPosition Real.pi Real.sqrt Real.cos Real.sin p u).1 ^ 2 +
            (FallingParticles.initPosition Real.pi Real.sqrt Real.cos Real.sin p u).2.2 ^ 2 =
          u.uR * (0.9 * FallingParticles.cylinderRadius) ^ 2) ∧
      ∀ q ∈ FallingParticles.frames p n
          (FallingParticles.init Real.pi Real.sqrt Real.cos Real.sin p draws).1,
        q.1 ^ 2 + q.2.2 ^ 2 < FallingParticles.cylinderRadius ^ 2 := by
  constructor
  · intro u hu
    exact FallingParticles.initPosition_sq p u (hdraws u hu).1
  · intro q hq
    obtain ⟨q0, hq0, hx, hz⟩ := FallingParticles.frames_xz p n _ q hq
    simp only [FallingParticles.init, List.mem_map] at hq0
    obtain ⟨u, hu, rfl⟩ := hq0
    obtain ⟨hu0, hu1⟩ := hdraws u hu
    rw [hx, hz, FallingParticles.initPosition_sq p u hu0]
    simp only [FallingParticles.cylinderRadius]
    nlinarith

/-- Witness of C21: 50 percent, one particle with `uR = 1/4`, three frames. -/
theorem particle_envelope_witness :
    (FallingParticles.initPosition Real.pi Real.sqrt Real.cos Real.sin (50 : ℝ)
          ⟨1 / 2, 1 / 8, 1 / 4, 0⟩).1 ^ 2 +
        (FallingParticles.initPosition Real.pi Real.sqrt Real.cos Real.sin (50 : ℝ)
          ⟨1 / 2, 1 / 8, 1 / 4, 0⟩).2.2 ^ 2 =
      1 / 4 * (0.9 * FallingParticles.cylinderRadius) ^ 2 ∧
    List.Forall (fun q : ℝ × ℝ × ℝ => q.1 ^ 2 + q.2.2 ^ 2 < FallingParticles.cylinderRadius ^ 2)
      (FallingParticles.frames (50 : ℝ) 3
        (FallingParticles.init Real.pi Real.sqrt Real.cos Real.sin 50
          [(⟨1 / 2, 1 / 8, 1 / 4, 0⟩ : Draws ℝ)]).1) := by
  have hd : ∀ u ∈ [(⟨1 / 2, 1 / 8, 1 / 4, 0⟩ : Draws ℝ)], 0 ≤ u.uR ∧ u.uR < 1 := by
    intro u hu
    rw [List.mem_singleton.mp hu]
    constructor <;> norm_num
  exact ⟨(particle_envelope 50 _ hd 3).1 _ (List.mem_singleton.mpr rfl),
    List.forall_iff_forall_mem.mpr (particle_envelope 50 _ hd 3).2⟩

/-- C22: whenever the cone stage pushes a mesh the divisors `coneVolume` and `coneHeight`
are not zero, whenever the cylinder stage pushes a mesh the divisor
`pi * fillCylinderRadius * fillCylinderRadius` is not zero, and for the silo's dimensions
both volumes are positive. -/
theorem fill_divisors_nonzero (cbrt : ℝ → ℝ) (g : SiloDims ℝ) (remainingVolume : ℝ) :
    ((coneStage Real.pi cbrt g remainingVolume).1 ≠ [] →
        0 < remainingVolume ∧ coneVolume Real.pi g ≠ 0 ∧ g.coneHeight ≠ 0) ∧
      ((cylinderStage Real.pi g remainingVolume).1 ≠ [] →
        0 < remainingVolume ∧
          Real.pi * fillCylinderRadius g * fillCylinderRadius g ≠ 0) ∧
      0 < coneVolume Real.pi (siloDims : SiloDims ℝ) ∧
      0 < cylinderVolume Real.pi (siloDims : SiloDims ℝ) := by
  refine ⟨?_, ?_, coneVolume_pos Real.pi_pos validDims_siloDims,
    cylinderVolume_pos Real.pi_pos validDims_siloDims⟩
  · intro h
    unfold coneStage at h
    split_ifs at h with hc
    · refine ⟨hc.1, ne_of_gt hc.2, ?_⟩
      intro h0
      have hv := hc.2
      simp [coneVolume, h0] at hv
    · exact absurd rfl h
  · intro h
    unfold cylinderStage at h
    split_ifs at h with hc
    · refine ⟨hc.1, ?_⟩
      intro h0
      have hv := hc.2
      simp [cylinderVolume, h0] at hv
    · exact absurd rfl h

/-- Witness of C22: both stages of the silo push a mesh for a remaining volume of 1. -/
theorem fill_divisors_nonzero_witness :
    ((0 : ℝ) < 1 ∧ coneVolume Real.pi (siloDims : SiloDims ℝ) ≠ 0 ∧
        (siloDims : SiloDims ℝ).coneHeight ≠ 0) ∧
      ((0 : ℝ) < 1 ∧
        Real.pi * fillCylinderRadius (siloDims : SiloDims ℝ) *
          fillCylinderRadius (siloDims : SiloDims ℝ) ≠ 0) :=
  ⟨(fill_divisors_nonzero (fun x : ℝ => x ^ ((1 : ℝ) / 3)) siloDims 1).1
      (by
        have hv := coneVolume_pos Real.pi_pos (validDims_siloDims : ValidDims (siloDims : SiloDims ℝ))
        simp [coneStage, hv]),
    (fill_divisors_nonzero (fun x : ℝ => x ^ ((1 : ℝ) / 3)) siloDims 1).2.1
      (by
        have hv := cylinderVolume_pos Real.pi_pos
          (validDims_siloDims : ValidDims (siloDims : SiloDims ℝ))
        simp [cylinderStage, hv])⟩

/-- C24: one frame of the particle field keeps the number of particles (200 for the
array the effect fills from 200 draws) and the `x` and `z` of every particle; a recycled
particle only has its height set to `cylinderHeight/2 + 1`. -/
theorem frame_changes_height_only (p : ℝ) (positions : List (ℝ × ℝ × ℝ)) :
    (FallingParticles.frame p positions).length = positions.length ∧
      (FallingParticles.frame p positions).map (fun q => (q.1, q.2.2)) =
        positions.map (fun q => (q.1, q.2.2)) ∧
      (∀ draws : List (Draws ℝ), draws.length = FallingParticles.particleCount →
        (FallingParticles.frame p
          (FallingParticles.init Real.pi Real.sqrt Real.cos Real.sin p draws).1).length = 200) ∧
      ∀ x y z : ℝ, y + -0.01 < FallingParticles.fillLine p →
        FallingParticles.frame p [(x, y, z)] = [(x, FallingParticles.cylinderHeight / 2 + 1, z)] := by
  refine ⟨?_, ?_, ?_, ?_⟩
  · simp [FallingParticles.frame]
  · simp [FallingParticles.frame, Function.comp_def]
  · intro draws hlen
    simp [FallingParticles.frame, FallingParticles.init, hlen, FallingParticles.particleCount]
  · intro x y z hy
    rcases FallingParticles.frameY_cases p y with ⟨_, h2⟩ | ⟨h1, _⟩
    · simp [FallingParticles.frame, h2]
    · exact absurd hy (not_lt.mpr h1)

/-- Witness of C24: 200 equal draws, and a particle at height -2 recycled at 50 percent. -/
theorem frame_changes_height_only_witness :
    (FallingParticles.frame (50 : ℝ)
        (FallingParticles.init Real.pi Real.sqrt Real.cos Real.sin 50
          (List.replicate 200 (⟨1 / 2, 0, 0, 0⟩ : Draws ℝ))).1).length = 200 ∧
      FallingParticles.frame (50 : ℝ) [(1, -2, 3)] =
        [(1, FallingParticles.cylinderHeight / 2 + 1, 3)] :=
  ⟨(frame_changes_height_only 50 []).2.2.1 _ (by
      rw [List.length_replicate]
      rfl),
    (frame_changes_height_only 50 []).2.2.2 1 (-2) 3 (by
      rw [FallingParticles.fillLine_eq]
      norm_num)⟩

/-! ## Status colours and pagination -/

/-- C25, the code at the failing input: at 90 the card view returns `#44ff44` and the
table view `#ff4444`; the two functions also disagree at 70, 45 and 10, one value in each
of the four bands. -/
theorem getStatusColor_disagree :
    (getStatusColor (90 : ℝ) = "#44ff44" ∧ Silos.getStatusColor (90 : ℝ) = "#ff4444") ∧
      (getStatusColor (70 : ℝ) = "#ffdd00" ∧ Silos.getStatusColor (70 : ℝ) = "#ffaa00") ∧
      (getStatusColor (45 : ℝ) = "#ffaa00" ∧ Silos.getStatusColor (45 : ℝ) = "#ffdd00") ∧
      (getStatusColor (10 : ℝ) = "#ff4444" ∧ Silos.getStatusColor (10 : ℝ) = "#44ff44") ∧
      getStatusColor (90 : ℝ) ≠ Silos.getStatusColor (90 : ℝ) := by
  have h90 : getStatusColor (90 : ℝ) = "#44ff44" ∧
      Silos.getStatusColor (90 : ℝ) = "#ff4444" := by
    unfold getStatusColor Silos.getStatusColor
    constructor <;> rw [if_pos (by norm_num)]
  have h70 : getStatusColor (70 : ℝ) = "#ffdd00" ∧
      Silos.getStatusColor (70 : ℝ) = "#ffaa00" := by
    unfold getStatusColor Silos.getStatusColor
    constructor <;> rw [if_neg (by norm_num), if_pos (by norm_num)]
  have h45 : getStatusColor (45 : ℝ) = "#ffaa00" ∧
      Silos.getStatusColor (45 : ℝ) = "#ffdd00" := by
    unfold getStatusColor Silos.getStatusColor
    constructor <;> rw [if_neg (by norm_num), if_neg (by norm_num), if_pos (by norm_num)]
  have h10 : getStatusColor (10 : ℝ) = "#ff4444" ∧
      Silos.getStatusColor (10 : ℝ) = "#44ff44" := by
    unfold getStatusColor Silos.getStatusColor
    constructor <;> rw [if_neg (by norm_num), if_neg (by norm_num), if_neg (by norm_num)]
  refine ⟨h90, h70, h45, h10, ?_⟩
  rw [h90.1, h90.2]
  decide

/-- C26: for every row list and every `pageSize ≥ 1`, with `totalPages = ceil (n /
pageSize)`, each of the pages `1, ..., totalPages` holds between 1 and `pageSize` rows, and
the pages put one after the other in page order are exactly the row list. -/
theorem pagination_partitions {ρ : Type} (rows : List ρ) (pageSize : Nat)
    (hps : 1 ≤ pageSize) :
    (∀ currentPage : Nat, 1 ≤ currentPage →
        currentPage ≤ DataTable.totalPages true rows pageSize →
        1 ≤ (DataTable.paginatedData true rows currentPage pageSize).length ∧
          (DataTable.paginatedData true rows currentPage pageSize).length ≤ pageSize) ∧
      (List.range (DataTable.totalPages true rows pageSize)).flatMap
          (fun i => DataTable.paginatedData true rows (i + 1) pageSize) = rows := by
  constructor
  · intro currentPage h1 h2
    obtain ⟨i, rfl⟩ : ∃ i, currentPage = i + 1 := ⟨currentPage - 1, by omega⟩
    have hlt := (DataTable.lt_totalPages_iff rows pageSize hps i).mp (by omega)
    rw [DataTable.paginatedData_succ, List.length_take, List.length_drop]
    constructor
    · exact le_min hps (by omega)
    · exact min_le_left _ _
  · rw [DataTable.flatMap_pages]
    exact List.take_of_length_le (DataTable.length_le_totalPages_mul rows pageSize hps)

/-- Witness of C26: seven rows in pages of three. -/
theorem pagination_partitions_witness :
    (1 ≤ (DataTable.paginatedData true [1, 2, 3, 4, 5, 6, 7] 3 3).length ∧
        (DataTable.paginatedData true [1, 2, 3, 4, 5, 6, 7] 3 3).length ≤ 3) ∧
      (List.range (DataTable.totalPages true [1, 2, 3, 4, 5, 6, 7] 3)).flatMap
          (fun i => DataTable.paginatedData true [1, 2, 3, 4, 5, 6, 7] (i + 1) 3) =
        [1, 2, 3, 4, 5, 6, 7] :=
  ⟨(pagination_partitions [1, 2, 3, 4, 5, 6, 7] 3 (by decide)).1 3 (by decide)
      ((DataTable.lt_totalPages_iff [1, 2, 3, 4, 5, 6, 7] 3 (by decide) 2).mpr (by decide)),
    (pagination_partitions [1, 2, 3, 4, 5, 6, 7] 3 (by decide)).2⟩

/-! ## Fill line of the particles against the fill surface -/

/-- C23: for the silo's dimensions the particle fill line equals the top of the emitted
solids at 100 percent and the bottom of the cone at 0 percent, and for every `p` with
`0 < p < 100` it is strictly below the top surface of the solids emitted for `p`; once
the cone is full the gap is `(2/3) * coneHeight * (1 - p/100)`. -/
theorem fillLine_below_surface (cbrt : ℝ → ℝ) (hc : IsCubeRoot cbrt) :
    fillTopY Real.cos (Silo3D.fillMeshes Real.pi cbrt 100) =
        some (FallingParticles.fillLine 100) ∧
      FallingParticles.fillLine (0 : ℝ) =
        -(siloDims : SiloDims ℝ).cylinderHeight / 2 - (siloDims : SiloDims ℝ).coneHeight ∧
      ∀ p : ℝ, 0 < p → p < 100 →
        ∃ top : ℝ, fillTopY Real.cos (Silo3D.fillMeshes Real.pi cbrt p) = some top ∧
          FallingParticles.fillLine p < top ∧
          (coneVolume Real.pi (siloDims : SiloDims ℝ) ≤ filledVolume Real.pi siloDims p →
            top - FallingParticles.fillLine p =
              2 / 3 * (siloDims : SiloDims ℝ).coneHeight * (1 - p / 100)) := by
  have hg : ValidDims (siloDims : SiloDims ℝ) := validDims_siloDims
  have hcv := coneVolume_pos Real.pi_pos hg
  have hyv := cylinderVolume_pos Real.pi_pos hg
  have hone : coneVolume Real.pi (siloDims : SiloDims ℝ) / coneVolume Real.pi siloDims = 1 :=
    div_self (ne_of_gt hcv)
  have hfull : (bottomConeFillMesh Real.pi cbrt (siloDims : SiloDims ℝ)
      (coneVolume Real.pi siloDims)).surfaceY Real.cos = -6.65 := by
    rw [surfaceY_bottomConeFillMesh, hone, hc.one]
    simp only [siloDims]
    norm_num
  refine ⟨?_, ?_, ?_⟩
  · unfold Silo3D.fillMeshes
    rw [fillMeshes_of_ge_total Real.pi_pos cbrt hg 100 (by simp [filledVolume])]
    simp only [fillTopY]
    rw [hfull, surfaceY_cylinderFillMesh, FallingParticles.fillLine_eq]
    have hd : cylinderVolume Real.pi (siloDims : SiloDims ℝ) /
        (Real.pi * fillCylinderRadius (siloDims : SiloDims ℝ) *
          fillCylinderRadius (siloDims : SiloDims ℝ)) = 13.30 := by
      have hpi : Real.pi ≠ 0 := ne_of_gt Real.pi_pos
      simp only [cylinderVolume, fillCylinderRadius, siloDims]
      field_simp
    rw [hd]
    simp only [siloDims]
    norm_num
  · rw [FallingParticles.fillLine_eq]
    simp only [siloDims]
    norm_num
  · intro p hp0 hp1
    have hF : 0 < filledVolume Real.pi (siloDims : SiloDims ℝ) p :=
      (filledVolume_pos_iff Real.pi_pos hg p).mpr hp0
    have hline := FallingParticles.fillLine_eq p
    rcases le_or_lt (filledVolume Real.pi (siloDims : SiloDims ℝ) p)
      (coneVolume Real.pi siloDims) with h1 | h1
    · -- the cone is not yet overfull: only the cone segment is emitted
      have hx0 : 0 < filledVolume Real.pi (siloDims : SiloDims ℝ) p /
          coneVolume Real.pi siloDims := div_pos hF hcv
      have hx1 : filledVolume Real.pi (siloDims : SiloDims ℝ) p /
          coneVolume Real.pi siloDims ≤ 1 := (div_le_one hcv).mpr h1
      have hc3 := hc _ hx0.le
      have hcpos := hc.pos hx0
      have hcle := hc.le_one hx0 hx1
      have hge : filledVolume Real.pi (siloDims : SiloDims ℝ) p /
          coneVolume Real.pi siloDims ≤
          cbrt (filledVolume Real.pi (siloDims : SiloDims ℝ) p /
            coneVolume Real.pi siloDims) := by
        have hcube : ∀ c : ℝ, 0 < c → c ≤ 1 → c ^ 3 ≤ c := by
          intro c h0 hle
          have h2 : c ^ 2 ≤ 1 := pow_le_one₀ h0.le hle
          calc c ^ 3 = c ^ 2 * c := by ring
            _ ≤ 1 * c := mul_le_mul_of_nonneg_right h2 h0.le
            _ = c := one_mul c
        exact le_of_eq_of_le hc3.symm (hcube _ hcpos hcle)
      rw [filledVolume_siloDims_div] at hge
      refine ⟨(bottomConeFillMesh Real.pi cbrt (siloDims : SiloDims ℝ)
        (filledVolume Real.pi siloDims p)).surfaceY Real.cos, ?_, ?_, ?_⟩
      · unfold Silo3D.fillMeshes
        rw [fillMeshes_of_le_cone Real.pi cbrt siloDims p hF h1]
        simp only [fillTopY]
      · rw [surfaceY_bottomConeFillMesh, filledVolume_siloDims_div, hline]
        simp only [siloDims]
        have h43 : 43.19 * (p / 100) ≤ 3.29 * cbrt (p / 100 * (43.19 / 3.29)) := by
          have := mul_le_mul_of_nonneg_left hge (by norm_num : (0 : ℝ) ≤ 3.29)
          calc 43.19 * (p / 100) = 3.29 * (p / 100 * (43.19 / 3.29)) := by ring
            _ ≤ 3.29 * cbrt (p / 100 * (43.19 / 3.29)) := this
        linarith
      · intro h2
        have heq : filledVolume Real.pi (siloDims : SiloDims ℝ) p =
            coneVolume Real.pi siloDims := le_antisymm h1 h2
        have hp : p / 100 * (43.19 / 3.29) = 1 := by
          rw [← filledVolume_siloDims_div, heq, hone]
        rw [surfaceY_bottomConeFillMesh, hline, heq, hone, hc.one]
        simp only [siloDims]
        linarith
    · -- the cone is full: the cylinder segment is on top
      have hlt : filledVolume Real.pi (siloDims : SiloDims ℝ) p - coneVolume Real.pi siloDims <
          cylinderVolume Real.pi siloDims := by
        have ht := totalVolume_pos Real.pi_pos hg
        have : filledVolume Real.pi (siloDims : SiloDims ℝ) p <
            totalVolume Real.pi siloDims := by
          unfold filledVolume
          have hq : p / 100 < 1 := by linarith
          calc p / 100 * totalVolume Real.pi (siloDims : SiloDims ℝ)
              < 1 * totalVolume Real.pi siloDims := mul_lt_mul_of_pos_right hq ht
            _ = totalVolume Real.pi siloDims := one_mul _
        unfold totalVolume at this
        linarith
      have hpos : 0 < p / 100 * (13.30 + 3.29 / 3) - 3.29 / 3 := by
        rw [← cylinderFillHeight_siloDims]
        exact div_pos (sub_pos.mpr h1)
          (by
            have hr := fillCylinderRadius_pos hg
            have hpi := Real.pi_pos
            positivity)
      refine ⟨-6.65 + (p / 100 * (13.30 + 3.29 / 3) - 3.29 / 3), ?_, ?_, ?_⟩
      · unfold Silo3D.fillMeshes
        rw [fillMeshes_of_gt_cone Real.pi cbrt siloDims p hcv hyv h1, min_eq_left hlt.le]
        simp only [fillTopY]
        rw [hfull, surfaceY_cylinderFillMesh, cylinderFillHeight_siloDims]
        have e : -(siloDims : SiloDims ℝ).cylinderHeight / 2 = -6.65 := by
          simp only [siloDims]
          norm_num
        rw [e, max_eq_right (by linarith)]
      · rw [hline]
        linarith
      · intro _
        rw [hline]
        simp only [siloDims]
        ring

/-- Witness of C23: the silo at 50 percent, where the cone is full. -/
theorem fillLine_below_surface_witness :
    ∃ top : ℝ,
      fillTopY Real.cos (Silo3D.fillMeshes Real.pi (fun x : ℝ => x ^ ((1 : ℝ) / 3)) 50) =
        some top ∧
      FallingParticles.fillLine (50 : ℝ) < top ∧
      top - FallingParticles.fillLine (50 : ℝ) =
        2 / 3 * (siloDims : SiloDims ℝ).coneHeight * (1 - 50 / 100) := by
  obtain ⟨top, h1, h2, h3⟩ :=
    (fillLine_below_surface _ isCubeRoot_rpow).2.2 50 (by norm_num) (by norm_num)
  exact ⟨top, h1, h2, h3 coneVolume_siloDims_lt_filled.le⟩

end SiloCard
